import Mathlib

/-!
Audio-reactive lighting: beat detector and LED effect engine

A shallow embedding of `main/boards/common/audio_rhythm_proccessor.cc`,
`main/boards/common/fft.cc`, `main/led/lamp_circular_strip.cc`, the brightness
mapping of `main/boards/common/lamp_controller.cc` and the alarm list of
`main/reminder/alarm.cc`.

Conventions of the embedding:

* In the beat detector a `float` is an IEEE 754 binary32 value (`F32`): a finite
  value, an infinity or a NaN. Every arithmetic operation computes the exact
  result and rounds it to the nearest binary32 value, ties to even (`round32`),
  with gradual underflow and overflow to infinity; expressions are evaluated in
  `float` precision. The two zeros are one value: the detector never divides by
  a variable, so no operation tells them apart. The constants `1.5f`, `0.5f`,
  `2.0f`, `200`, `9`, `15` and `32768.0f` are binary32 values; the default
  sensitivity `1.3f` is `5452595 / 4194304`.
* In the LED effect engine `float` values are exact rationals (`ℚ`).
* `int` is `ℤ` and `size_t` is `ℕ`; `uint8_t` is a natural number below 256.
* Behaviour the language leaves undefined is a `Fault`: an element access past
  the end of a vector, an access past the end of a buffer through a pointer, a
  division by zero, a float-to-integer conversion whose truncated value does
  not fit the target type.
* Calls into code outside these files are parameters or a trace: the routines
  of the ESP-DSP library and libm `sin` are parameters; the calls on the
  `CircularStrip` base class are recorded in order.
* Each operation runs alone, except in the section on the state lock, where the
  methods of the strip are sequences of steps that two threads interleave.
-/

namespace Xiaozhi

/-! ## Binary32 arithmetic -/

/-- A `float` (IEEE 754 binary32): a finite value, given as the rational number
it denotes, an infinity with its sign, or a NaN. The values the machine type
holds are the infinities, NaN and the finite values that `round32` returns. -/
inductive F32
  | finite (value : ℚ)
  | infinite (negative : Bool)
  | nan
  deriving DecidableEq, Repr

/-- Rounding to the nearest integer, a tie to the even neighbour. -/
def round_half_even (x : ℚ) : Int :=
  if x - ⌊x⌋ < 1 / 2 then ⌊x⌋
  else if 1 / 2 < x - ⌊x⌋ then ⌊x⌋ + 1
  else if ⌊x⌋ % 2 = 0 then ⌊x⌋ else ⌊x⌋ + 1

/-- The binary exponent used to round `x`: the `e` with `2 ^ e ≤ |x| < 2 ^ (e + 1)`,
and `-126` for every smaller `x` (the subnormal range). -/
def binade (x : ℚ) : Int :=
  max (Int.log 2 |x|) (-126)

/-- Rounding of an exact result to binary32, to nearest and ties to even: the
result is a multiple of `2 ^ (binade x - 23)` (24 significant bits), and a
rounded magnitude of `2 ^ 128` or more is an infinity. -/
def round32 (x : ℚ) : F32 :=
  if x = 0 then F32.finite 0
  else
    let quantum : ℚ := (2 : ℚ) ^ (binade x - 23)
    let y : ℚ := (round_half_even (x / quantum) : ℚ) * quantum
    if (2 : ℚ) ^ (128 : Nat) ≤ |y| then F32.infinite (decide (x < 0)) else F32.finite y

/-- The value `0.0f`. -/
def F32.zero : F32 := F32.finite 0

/-- The conversion of an integer to `float`. -/
def F32.of_int (n : Int) : F32 := round32 (n : ℚ)

/-- The operator `+` on `float`. -/
def F32.add : F32 → F32 → F32
  | F32.finite a, F32.finite b => round32 (a + b)
  | F32.finite _, F32.infinite s => F32.infinite s
  | F32.infinite s, F32.finite _ => F32.infinite s
  | F32.infinite s, F32.infinite t => if s = t then F32.infinite s else F32.nan
  | F32.nan, _ => F32.nan
  | _, F32.nan => F32.nan

/-- The operator `*` on `float`. -/
def F32.mul : F32 → F32 → F32
  | F32.finite a, F32.finite b => round32 (a * b)
  | F32.finite a, F32.infinite s =>
    if a = 0 then F32.nan else F32.infinite (xor (decide (a < 0)) s)
  | F32.infinite s, F32.finite b =>
    if b = 0 then F32.nan else F32.infinite (xor s (decide (b < 0)))
  | F32.infinite s, F32.infinite t => F32.infinite (xor s t)
  | F32.nan, _ => F32.nan
  | _, F32.nan => F32.nan

/-- The operator `/` on `float`. A zero divisor is taken as `+0`; the detector
divides by the constants `9`, `15` and `32768` only. -/
def F32.div : F32 → F32 → F32
  | F32.finite a, F32.finite b =>
    if b = 0 then (if a = 0 then F32.nan else F32.infinite (decide (a < 0)))
    else round32 (a / b)
  | F32.finite _, F32.infinite _ => F32.finite 0
  | F32.infinite s, F32.finite b => F32.infinite (xor s (decide (b < 0)))
  | F32.infinite _, F32.infinite _ => F32.nan
  | F32.nan, _ => F32.nan
  | _, F32.nan => F32.nan

/-- The operator `<` on `float`: false when either side is a NaN. -/
def F32.lt : F32 → F32 → Bool
  | F32.finite a, F32.finite b => decide (a < b)
  | F32.finite _, F32.infinite s => !s
  | F32.infinite s, F32.finite _ => s
  | F32.infinite s, F32.infinite t => s && !t
  | F32.nan, _ => false
  | _, F32.nan => false

/-! ## Transform setup and execution (`fft.cc`) -/

/-- Undefined behaviour the embedding makes explicit. -/
inductive Fault
  | index_out_of_bounds
  | division_by_zero
  | cast_out_of_range
  | buffer_overrun
  deriving DecidableEq, Repr

/-- The `esp_err_t` codes used by the sources. -/
inductive esp_err_t
  | ESP_OK
  | ESP_ERR_NO_MEM
  | ESP_ERR_INVALID_ARG
  | ESP_ERR_INVALID_STATE
  | ESP_ERR_NOT_FOUND
  deriving DecidableEq, Repr

/-- The transform family, `fft_type_t` of `fft.h`. -/
inductive fft_type_t
  | FFT_RADIX_2
  | FFT_RADIX_4
  | FFT_REAL
  deriving DecidableEq, Repr

/-- The transform configuration, `fft_config_t` of `fft.h`; `work_buffer` records
whether the pointer is non-null. -/
structure fft_config_t where
  type : fft_type_t
  length : Int
  work_buffer : Bool
  deriving DecidableEq, Repr

/-- The function `fft_init` of `fft.cc`. `alloc_ok` says whether an allocator
(`heap_caps_malloc` under `CONFIG_SPIRAM`, else the fallback `malloc`) returned
a buffer. The result is the error code and the configuration as left behind. -/
def fft_init (alloc_ok : Bool) (cfg : fft_config_t) (type : fft_type_t) (length : Int) :
    esp_err_t × fft_config_t :=
  if length ≤ 0 then
    (esp_err_t.ESP_ERR_INVALID_ARG, cfg)
  else if (type = fft_type_t.FFT_RADIX_2 ∧ Nat.land length.toNat (length - 1).toNat ≠ 0) ∨
      (type = fft_type_t.FFT_RADIX_4 ∧ length % 4 ≠ 0) then
    (esp_err_t.ESP_ERR_INVALID_ARG, cfg)
  else
    let cfg1 : fft_config_t := { type := type, length := length, work_buffer := false }
    if type = fft_type_t.FFT_REAL ∨ type = fft_type_t.FFT_RADIX_4 then
      if alloc_ok then
        (esp_err_t.ESP_OK, { cfg1 with work_buffer := true })
      else
        (esp_err_t.ESP_ERR_NO_MEM, cfg1)
    else
      (esp_err_t.ESP_OK, cfg1)

/-- The function `fft_cleanup` of `fft.cc`: frees the work buffer when there is one. -/
def fft_cleanup (cfg : fft_config_t) : fft_config_t :=
  if cfg.work_buffer then { cfg with work_buffer := false } else cfg

/-- The ESP-DSP routines that `fft_execute` calls. A routine is given the float
array at `data` and the point count `N`; it returns its `esp_err_t` code and
the content it leaves in the array (element `i`). -/
structure EspDsp where
  dsps_fft2r_fc32_ansi : List F32 → Int → esp_err_t × (Nat → F32)
  dsps_fft2r_fc32 : List F32 → Int → esp_err_t × (Nat → F32)
  dsps_bit_rev2r_fc32 : List F32 → Int → esp_err_t × (Nat → F32)
  dsps_fft4r_fc32 : List F32 → Int → esp_err_t × (Nat → F32)
  dsps_bit_rev4r_fc32 : List F32 → Int → esp_err_t × (Nat → F32)
  dsps_cplx2real_fc32 : List F32 → Int → esp_err_t × (Nat → F32)

/-- A call of an ESP-DSP routine on the buffer `data`. A routine that returns
`ESP_OK` has worked in place on `N` complex points, that is `2 * N` floats: on
a shorter buffer it has run past the end. -/
def dsps_call (routine : List F32 → Int → esp_err_t × (Nat → F32)) (data : List F32)
    (N : Int) : Except Fault (esp_err_t × List F32) :=
  if (routine data N).1 = esp_err_t.ESP_OK ∧ (data.length : Int) < 2 * N then
    Except.error Fault.buffer_overrun
  else
    Except.ok ((routine data N).1, (List.range data.length).map (routine data N).2)

/-- The call `memcpy(dst, src, n * sizeof(float))`: the destination after the
copy. Reading `n` floats from a shorter source or writing them to a shorter
destination runs past the end of the buffer; a negative `n` is a huge `size_t`. -/
def memcpy (dst src : List F32) (n : Int) : Except Fault (List F32) :=
  if n < 0 ∨ (dst.length : Int) < n ∨ (src.length : Int) < n then
    Except.error Fault.buffer_overrun
  else
    Except.ok (src.take n.toNat ++ dst.drop n.toNat)

/-- The function `fft_execute` of `fft.cc`. `input` and `output` are the float
arrays at the two pointers, as long as the caller made them; the pointer of an
empty array is null (`std::vector::data()` of an empty vector). The work buffer
holds `2 * length` floats. The result is the error code and the two arrays as
left behind. -/
def fft_execute (dsp : EspDsp) (cfg : fft_config_t) (input output : List F32) :
    Except Fault (esp_err_t × List F32 × List F32) :=
  if input.isEmpty || output.isEmpty then
    Except.ok (esp_err_t.ESP_ERR_INVALID_ARG, input, output)
  else
    match cfg.type with
    | fft_type_t.FFT_RADIX_2 =>
      match dsps_call dsp.dsps_fft2r_fc32_ansi input cfg.length with
      | Except.error f => Except.error f
      | Except.ok (ret1, input1) =>
        if ret1 ≠ esp_err_t.ESP_OK then Except.ok (ret1, input1, output)
        else
          match dsps_call dsp.dsps_bit_rev2r_fc32 input1 cfg.length with
          | Except.error f => Except.error f
          | Except.ok (ret2, input2) =>
            if ret2 ≠ esp_err_t.ESP_OK then Except.ok (ret2, input2, output)
            else
              match memcpy output input2 (2 * cfg.length) with
              | Except.error f => Except.error f
              | Except.ok output1 => Except.ok (esp_err_t.ESP_OK, input2, output1)
    | fft_type_t.FFT_RADIX_4 =>
      if !cfg.work_buffer then
        Except.ok (esp_err_t.ESP_ERR_INVALID_STATE, input, output)
      else
        match memcpy (List.replicate (2 * cfg.length).toNat F32.zero) input (2 * cfg.length) with
        | Except.error f => Except.error f
        | Except.ok work =>
          match dsps_call dsp.dsps_fft4r_fc32 work cfg.length with
          | Except.error f => Except.error f
          | Except.ok (ret1, work1) =>
            if ret1 ≠ esp_err_t.ESP_OK then Except.ok (ret1, input, output)
            else
              match dsps_call dsp.dsps_bit_rev4r_fc32 output cfg.length with
              | Except.error f => Except.error f
              | Except.ok (ret2, output1) =>
                if ret2 ≠ esp_err_t.ESP_OK then Except.ok (ret2, input, output1)
                else
                  match memcpy output1 work1 (2 * cfg.length) with
                  | Except.error f => Except.error f
                  | Except.ok output2 => Except.ok (esp_err_t.ESP_OK, input, output2)
    | fft_type_t.FFT_REAL =>
      if !cfg.work_buffer then
        Except.ok (esp_err_t.ESP_ERR_INVALID_STATE, input, output)
      else if (input.length : Int) < cfg.length then
        Except.error Fault.buffer_overrun
      else
        let work : List F32 :=
          (input.take cfg.length.toNat).flatMap (fun (x : F32) => [x, F32.zero])
        match dsps_call dsp.dsps_fft2r_fc32 work cfg.length with
        | Except.error f => Except.error f
        | Except.ok (ret1, work1) =>
          if ret1 ≠ esp_err_t.ESP_OK then Except.ok (ret1, input, output)
          else
            match dsps_call dsp.dsps_bit_rev2r_fc32 work1 cfg.length with
            | Except.error f => Except.error f
            | Except.ok (ret2, work2) =>
              if ret2 ≠ esp_err_t.ESP_OK then Except.ok (ret2, input, output)
              else
                match dsps_call dsp.dsps_cplx2real_fc32 work2 cfg.length with
                | Except.error f => Except.error f
                | Except.ok (ret3, work3) =>
                  if ret3 ≠ esp_err_t.ESP_OK then Except.ok (ret3, input, output)
                  else
                    match memcpy output work3 (2 * cfg.length) with
                    | Except.error f => Except.error f
                    | Except.ok output1 => Except.ok (esp_err_t.ESP_OK, input, output1)

/-! ## Beat detector (`audio_rhythm_proccessor.cc`) -/

/-- The constant `HISTORY_SIZE` of `audio_rhythm_proccessor.cc`. -/
def HISTORY_SIZE : Nat := 15

/-- The constant `BASE_THRESHOLD` of `audio_rhythm_proccessor.cc` (`1.5f`). -/
def BASE_THRESHOLD : F32 := F32.finite (3 / 2)

/-- The constant `BASS_BAND_START` of `audio_rhythm_proccessor.cc`. -/
def BASS_BAND_START : Nat := 2

/-- The constant `BASS_BAND_END` of `audio_rhythm_proccessor.cc`. -/
def BASS_BAND_END : Nat := 10

/-- The fields of `AudioRhythmProcessor`. `callback_` records whether the
`std::function` holds a target; the calls made through it are the trace that
`Process` returns. -/
structure AudioRhythmProcessor where
  callback_ : Bool
  running_ : Bool
  sensitivity_ : F32
  fft_config_ : fft_config_t
  energy_history_ : List F32
  history_index_ : Nat
  deriving DecidableEq, Repr

/-- A newly constructed detector: the in-class initialisers of the header; the
sensitivity is the binary32 value of `1.3f`. The transform configuration is
indeterminate until `Start`; it is not read before. -/
def AudioRhythmProcessor.init : AudioRhythmProcessor :=
  { callback_ := false
    running_ := false
    sensitivity_ := F32.finite (5452595 / 4194304)
    fft_config_ := { type := fft_type_t.FFT_RADIX_2, length := 0, work_buffer := false }
    energy_history_ := []
    history_index_ := 0 }

/-- The function `std::clamp(v, lo, hi)` on `float`:
`(v < lo) ? lo : (hi < v) ? hi : v`. -/
def std_clamp (v lo hi : F32) : F32 :=
  if F32.lt v lo then lo else if F32.lt hi v then hi else v

/-- The method `std::vector::resize(n, value)`: drops the elements past `n`, or appends
copies of `value` until the size is `n`; elements already there are kept. -/
def vector_resize (v : List F32) (n : Nat) (value : F32) : List F32 :=
  if n ≤ v.length then v.take n else v ++ List.replicate (n - v.length) value

/-- The conversion `static_cast<int>` of a `float`: truncation toward zero. The
behaviour is undefined when the truncated value does not fit a 32-bit `int`, as
for an infinity or a NaN. -/
def static_cast_int (x : F32) : Except Fault Int :=
  match x with
  | F32.finite q =>
    if -(2 : Int) ^ 31 ≤ Int.tdiv q.num (q.den : Int) ∧
        Int.tdiv q.num (q.den : Int) < (2 : Int) ^ 31 then
      Except.ok (Int.tdiv q.num (q.den : Int))
    else
      Except.error Fault.cast_out_of_range
  | _ => Except.error Fault.cast_out_of_range

/-- The method `AudioRhythmProcessor::SetSensitivity`. -/
def SetSensitivity (st : AudioRhythmProcessor) (sensitivity : F32) : AudioRhythmProcessor :=
  { st with sensitivity_ := std_clamp sensitivity (F32.finite (1 / 2)) (F32.finite 2) }

/-- The method `AudioRhythmProcessor::SetCallback`; `cb` says whether the function object
passed in holds a target. -/
def SetCallback (st : AudioRhythmProcessor) (cb : Bool) : AudioRhythmProcessor :=
  { st with callback_ := cb }

/-- The method `AudioRhythmProcessor::Start`. The result of `fft_init` is discarded, as in
the source. -/
def Start (alloc_ok : Bool) (st : AudioRhythmProcessor) : AudioRhythmProcessor :=
  if !st.running_ then
    { st with
      running_ := true
      fft_config_ := (fft_init alloc_ok st.fft_config_ fft_type_t.FFT_REAL 1024).2
      energy_history_ := vector_resize st.energy_history_ HISTORY_SIZE F32.zero }
  else st

/-- The method `AudioRhythmProcessor::Stop`. -/
def Stop (st : AudioRhythmProcessor) : AudioRhythmProcessor :=
  if st.running_ then
    { st with running_ := false, fft_config_ := fft_cleanup st.fft_config_ }
  else st

/-- Step 1 of `Process` (lines 35 to 44): the block normalised into `input`, a
zero-filled `spectrum` of `fft_config_.length / 2` floats, and the call of
`fft_execute` on the two, whose error code is discarded. The result is the
content of `spectrum` after the call. A negative size, which `fft_init` never
sets, is taken as 0: step 2 then reads past the end of `spectrum`. -/
def Process_spectrum (dsp : EspDsp) (st : AudioRhythmProcessor) (samples : List Int) :
    Except Fault (List F32) :=
  match fft_execute dsp st.fft_config_
      (samples.map (fun (s : Int) => F32.div (F32.of_int s) (F32.finite 32768)))
      (List.replicate (Int.tdiv st.fft_config_.length 2).toNat F32.zero) with
  | Except.error f => Except.error f
  | Except.ok (_, _, spectrum) => Except.ok spectrum

/-- Step 2 of `Process` (lines 47 to 51): the spectrum bins
`BASS_BAND_START..BASS_BAND_END` summed in order and divided by their number. -/
def bass_energy (spectrum : List F32) : Except Fault F32 :=
  if BASS_BAND_END < spectrum.length then
    Except.ok
      (F32.div
        ((List.range (BASS_BAND_END - BASS_BAND_START + 1)).foldl
          (fun (acc : F32) (k : Nat) => F32.add acc (spectrum.getD (BASS_BAND_START + k) F32.zero))
          F32.zero)
        (F32.of_int ((BASS_BAND_END : Int) - (BASS_BAND_START : Int) + 1)))
  else
    Except.error Fault.index_out_of_bounds

/-- Step 3 of `Process` (lines 54 and 55): the bass energy written into the
current slot of the history, and the index advanced. -/
def Process_store (st : AudioRhythmProcessor) (bass : F32) :
    Except Fault AudioRhythmProcessor :=
  if st.history_index_ < st.energy_history_.length then
    Except.ok
      { st with
        energy_history_ := st.energy_history_.set st.history_index_ bass
        history_index_ := (st.history_index_ + 1) % HISTORY_SIZE }
  else
    Except.error Fault.index_out_of_bounds

/-- Step 4 of `Process` (lines 58 to 60): the history summed in order, divided by
`HISTORY_SIZE`. -/
def avg_energy (energy_history : List F32) : F32 :=
  F32.div (energy_history.foldl (fun (acc e : F32) => F32.add acc e) F32.zero)
    (F32.of_int (HISTORY_SIZE : Int))

/-- Step 4 of `Process` (line 62): `avg_energy * BASE_THRESHOLD * sensitivity_`. -/
def dynamic_threshold (energy_history : List F32) (sensitivity : F32) : F32 :=
  F32.mul (F32.mul (avg_energy energy_history) BASE_THRESHOLD) sensitivity

/-- Step 4 of `Process` (lines 58 to 66), on the state that step 3 left: the
arguments of the callback calls made. -/
def Process_decide (st : AudioRhythmProcessor) (bass : F32) : Except Fault (List Int) :=
  if F32.lt (dynamic_threshold st.energy_history_ st.sensitivity_) bass then
    match static_cast_int (F32.mul bass (F32.of_int 200)) with
    | Except.error f => Except.error f
    | Except.ok volume => Except.ok [volume]
  else
    Except.ok []

/-- Steps 3 and 4 of `Process` (lines 53 to 66) for the bass energy `bass`: the
new detector state and the arguments of the callback calls made. -/
def Process_detect (st : AudioRhythmProcessor) (bass : F32) :
    Except Fault (AudioRhythmProcessor × List Int) :=
  match Process_store st bass with
  | Except.error f => Except.error f
  | Except.ok st1 =>
    match Process_decide st1 bass with
    | Except.error f => Except.error f
    | Except.ok calls => Except.ok (st1, calls)

/-- The method `AudioRhythmProcessor::Process`. `samples` is the block, `sample_count` its
length. The result is the new detector state and the arguments of the callback
calls made, in order. -/
def Process (dsp : EspDsp) (st : AudioRhythmProcessor) (samples : List Int) :
    Except Fault (AudioRhythmProcessor × List Int) :=
  if !st.running_ || !st.callback_ || samples.length == 0 then
    Except.ok (st, [])
  else
    match Process_spectrum dsp st samples with
    | Except.error f => Except.error f
    | Except.ok spectrum =>
      match bass_energy spectrum with
      | Except.error f => Except.error f
      | Except.ok bass => Process_detect st bass

/-- One call of the detector's public interface. -/
inductive Op
  | Start (alloc_ok : Bool)
  | Stop
  | SetSensitivity (sensitivity : F32)
  | SetCallback (cb : Bool)
  | Process (samples : List Int)
  deriving Repr

/-- The effect of one call: the new state and the callback calls it made. -/
def step (dsp : EspDsp) (st : AudioRhythmProcessor) :
    Op → Except Fault (AudioRhythmProcessor × List Int)
  | Op.Start alloc_ok => Except.ok (Start alloc_ok st, [])
  | Op.Stop => Except.ok (Stop st, [])
  | Op.SetSensitivity s => Except.ok (SetSensitivity st s, [])
  | Op.SetCallback cb => Except.ok (SetCallback st cb, [])
  | Op.Process samples => Process dsp st samples

/-- A sequence of calls, left to right: the final state and, call by call, the
callback calls made. A fault in any call is the result of the sequence. -/
def run (dsp : EspDsp) (st : AudioRhythmProcessor) :
    List Op → Except Fault (AudioRhythmProcessor × List (List Int))
  | [] => Except.ok (st, [])
  | op :: ops =>
    match step dsp st op with
    | Except.error f => Except.error f
    | Except.ok (st1, calls) =>
      match run dsp st1 ops with
      | Except.error f => Except.error f
      | Except.ok (st2, rest) => Except.ok (st2, calls :: rest)

/-- An ESP-DSP library whose routines all return `ESP_OK`; what they leave in
the data is of no account here and is taken to be the data itself. -/
def dsps_ready : EspDsp :=
  { dsps_fft2r_fc32_ansi := fun data _ => (esp_err_t.ESP_OK, fun i => data.getD i F32.zero)
    dsps_fft2r_fc32 := fun data _ => (esp_err_t.ESP_OK, fun i => data.getD i F32.zero)
    dsps_bit_rev2r_fc32 := fun data _ => (esp_err_t.ESP_OK, fun i => data.getD i F32.zero)
    dsps_fft4r_fc32 := fun data _ => (esp_err_t.ESP_OK, fun i => data.getD i F32.zero)
    dsps_bit_rev4r_fc32 := fun data _ => (esp_err_t.ESP_OK, fun i => data.getD i F32.zero)
    dsps_cplx2real_fc32 := fun data _ => (esp_err_t.ESP_OK, fun i => data.getD i F32.zero) }

/-- A block of 1024 samples of value `v`. -/
def constant_block (v : Int) : List Int := List.replicate 1024 v

/-- A detector after `Start()` and `SetCallback(cb)` with a target. -/
def started : AudioRhythmProcessor :=
  SetCallback (Start true AudioRhythmProcessor.init) true

/-- The invariant of the detector: the write index is below 15; the history has
15 entries and the transform is the real one on 1024 points, unless the
detector was never started (then the history is empty and the detector is not
running); every history entry is zero. -/
def history_ok (st : AudioRhythmProcessor) : Prop :=
  st.history_index_ < 15 ∧
    ((st.energy_history_.length = 15 ∧ st.fft_config_.length = 1024 ∧
        st.fft_config_.type = fft_type_t.FFT_REAL) ∨
      (st.energy_history_ = [] ∧ st.running_ = false)) ∧
    (∀ e ∈ st.energy_history_, e = F32.zero)

instance (st : AudioRhythmProcessor) : Decidable (history_ok st) := by
  unfold history_ok
  infer_instance

/-- The type `StripColor` of the strip driver: three `uint8_t` channels. -/
structure StripColor where
  red : Nat
  green : Nat
  blue : Nat
  deriving DecidableEq, Repr

/-- The enumeration `EffectType` of `lamp_circular_strip.h`. -/
inductive EffectType
  | EFFECT_STATIC
  | EFFECT_BLINK
  | EFFECT_SCROLL
  | EFFECT_STATIC_SINGLE
  | EFFECT_MUSIC
  deriving DecidableEq, Repr

/-- The structure `EffectParams` of `lamp_circular_strip.h`. -/
structure EffectParams where
  base_color : StripColor
  interval : Int
  length : Int
  index : Int
  deriving DecidableEq, Repr

/-- A call on the `CircularStrip` base class, which writes pixels and drives the
hardware: the strip's output is the sequence of these calls. -/
inductive StripCall
  | SetAllColor (color : StripColor)
  | Blink (color : StripColor) (interval : Int)
  | Scroll (low high : StripColor) (length interval : Int)
  | SetSingleColor (index : Int) (color : StripColor)
  | SetIndexColor (index : Nat) (color : StripColor)
  | Show
  deriving DecidableEq, Repr

/-- The fields of `LampCircularStrip` with those it reads from its base class
(`max_leds_`, `default_brightness_`, `low_brightness_`). -/
structure LampCircularStrip where
  max_leds_ : Nat
  default_brightness_ : Nat
  low_brightness_ : Nat
  power_ : Bool
  current_effect_ : EffectType
  effect_params_ : EffectParams
  deriving DecidableEq, Repr

/-- The conversion `static_cast<uint8_t>` of a float: truncation toward zero, undefined when
the truncated value is not in `0..255`. -/
def static_cast_uint8 (x : ℚ) : Except Fault Nat :=
  if 0 ≤ Int.tdiv x.num (x.den : Int) ∧ Int.tdiv x.num (x.den : Int) ≤ 255 then
    Except.ok (Int.tdiv x.num (x.den : Int)).toNat
  else
    Except.error Fault.cast_out_of_range

/-- A division whose divisor may be a run-time zero. -/
def checked_div (x y : ℚ) : Except Fault ℚ :=
  if y = 0 then Except.error Fault.division_by_zero else Except.ok (x / y)

/-- The constant `M_PI` of `<cmath>`: the double nearest to π. -/
def M_PI : ℚ := 884279719003555 / 281474976710656

/-- A colour with each channel multiplied by `factor` and cast to `uint8_t`. -/
def scale_color (color : StripColor) (factor : ℚ) : Except Fault StripColor :=
  match static_cast_uint8 ((color.red : ℚ) * factor) with
  | Except.error f => Except.error f
  | Except.ok r =>
    match static_cast_uint8 ((color.green : ℚ) * factor) with
    | Except.error f => Except.error f
    | Except.ok g =>
      match static_cast_uint8 ((color.blue : ℚ) * factor) with
      | Except.error f => Except.error f
      | Except.ok b => Except.ok { red := r, green := g, blue := b }

/-- The body of the pixel loop of `UpdateMusicEffect` for pixel `i`: the colour
passed to `SetIndexColor`. `sin` is libm's. -/
def music_pixel (sin : ℚ → ℚ) (max_leds : Nat) (dynamic_color : StripColor) (volume : Int)
    (i : Nat) : Except Fault StripColor :=
  match checked_div ((i : ℚ) * 2 * M_PI) (max_leds : ℚ) with
  | Except.error f => Except.error f
  | Except.ok angle =>
    scale_color dynamic_color ((sin (angle + (volume : ℚ) * (1 / 100)) + 1) * (1 / 2))

/-- The pixel loop of `UpdateMusicEffect` over the pixel indices given. -/
def music_loop (sin : ℚ → ℚ) (max_leds : Nat) (dynamic_color : StripColor) (volume : Int) :
    List Nat → Except Fault (List StripCall)
  | [] => Except.ok []
  | i :: rest =>
    match music_pixel sin max_leds dynamic_color volume i with
    | Except.error f => Except.error f
    | Except.ok c =>
      match music_loop sin max_leds dynamic_color volume rest with
      | Except.error f => Except.error f
      | Except.ok calls => Except.ok (StripCall.SetIndexColor i c :: calls)

/-- The method `LampCircularStrip::UpdateMusicEffect`: the base-class calls it makes, in
order. The strip's own fields are not modified. -/
def UpdateMusicEffect (sin : ℚ → ℚ) (st : LampCircularStrip) (volume : Int) :
    Except Fault (List StripCall) :=
  if st.max_leds_ = 0 then
    Except.ok []
  else if !st.power_ || st.current_effect_ ≠ EffectType.EFFECT_MUSIC then
    Except.ok []
  else
    match scale_color st.effect_params_.base_color ((volume : ℚ) / 255) with
    | Except.error f => Except.error f
    | Except.ok dynamic_color =>
      match music_loop sin st.max_leds_ dynamic_color volume (List.range st.max_leds_) with
      | Except.error f => Except.error f
      | Except.ok calls => Except.ok (calls ++ [StripCall.Show])

/-- The method `LampCircularStrip::ApplyBrightness`: each channel times
`brightness / 255.0f`, cast to `uint8_t`. -/
def ApplyBrightness (color : StripColor) (brightness : Int) : Except Fault StripColor :=
  scale_color color ((brightness : ℚ) / 255)

/-- The method `LampCircularStrip::RefreshEffect`: the base-class calls it
makes, in order. `SetAllColor` is the base class's fill of every pixel. -/
def RefreshEffect (st : LampCircularStrip) : Except Fault (List StripCall) :=
  if !st.power_ then
    Except.ok [StripCall.SetAllColor { red := 0, green := 0, blue := 0 }]
  else
    match ApplyBrightness st.effect_params_.base_color (st.default_brightness_ : Int) with
    | Except.error f => Except.error f
    | Except.ok color =>
      match st.current_effect_ with
      | EffectType.EFFECT_STATIC => Except.ok [StripCall.SetAllColor color]
      | EffectType.EFFECT_BLINK => Except.ok [StripCall.Blink color st.effect_params_.interval]
      | EffectType.EFFECT_SCROLL =>
        Except.ok [StripCall.Scroll { red := 4, green := 4, blue := 4 } color
          st.effect_params_.length st.effect_params_.interval]
      | EffectType.EFFECT_STATIC_SINGLE =>
        Except.ok [StripCall.SetSingleColor st.effect_params_.index color]
      | EffectType.EFFECT_MUSIC => Except.ok []

/-- The method `LampCircularStrip::SetPower`: the new state and the calls of the
`RefreshEffect` it ends with. -/
def SetPower (st : LampCircularStrip) (power : Bool) :
    LampCircularStrip × Except Fault (List StripCall) :=
  ({ st with power_ := power }, RefreshEffect { st with power_ := power })

/-- The method `LampCircularStrip::SetBrightness`. -/
def SetBrightness (st : LampCircularStrip) (default_brightness low_brightness : Nat) :
    LampCircularStrip × Except Fault (List StripCall) :=
  ({ st with default_brightness_ := default_brightness, low_brightness_ := low_brightness },
    RefreshEffect
      { st with default_brightness_ := default_brightness, low_brightness_ := low_brightness })

/-- The method `LampCircularStrip::SetEffect(EffectType)`. -/
def SetEffect (st : LampCircularStrip) (effect : EffectType) :
    LampCircularStrip × Except Fault (List StripCall) :=
  ({ st with current_effect_ := effect }, RefreshEffect { st with current_effect_ := effect })

/-- The method `LampCircularStrip::SetEffect(EffectType, EffectParams)`. -/
def SetEffectParams (st : LampCircularStrip) (effect : EffectType) (params : EffectParams) :
    LampCircularStrip × Except Fault (List StripCall) :=
  ({ st with current_effect_ := effect, effect_params_ := params },
    RefreshEffect { st with current_effect_ := effect, effect_params_ := params })

/-- A 12-pixel strip, powered, in Music mode, warm base colour `(255, 120, 5)`,
default brightness 128. -/
def music_strip : LampCircularStrip :=
  { max_leds_ := 12
    default_brightness_ := 128
    low_brightness_ := 4
    power_ := true
    current_effect_ := EffectType.EFFECT_MUSIC
    effect_params_ :=
      { base_color := { red := 255, green := 120, blue := 5 }
        interval := 200, length := 5, index := 0 } }

/-! ## Brightness levels (`lamp_controller.cc`) -/

/-- The builtin `__builtin_clz` on a 32-bit `unsigned int`: the number of zero
bits above the most significant one bit. The builtin is undefined for 0. -/
def builtin_clz (value : Nat) : Nat :=
  ((List.range 32).reverse.takeWhile (fun i => !value.testBit i)).length

/-- The method `LampController::LevelToBrightness`. -/
def LevelToBrightness (level : Int) : Int :=
  let level1 := if level < 0 then 0 else level
  let level2 := if level1 > 8 then 8 else level1
  ((1 <<< level2.toNat : Nat) : Int) - 1

/-- The method `LampController::BrightnessToLevel`; `unsigned int` has 32 bits. -/
def BrightnessToLevel (brightness : Int) : Int :=
  let brightness1 := if brightness < 0 then 0 else brightness
  let brightness2 := if brightness1 > 255 then 255 else brightness1
  let value : Nat := brightness2.toNat + 1
  let total_bits : Int := 4 * 8
  (total_bits - 1) - (builtin_clz value : Int)

/-! ## The state lock of the effect engine -/

/-- One step of a `LampCircularStrip` method, as far as `state_mutex_` and the
effect state go: taking the lock (`std::lock_guard` constructed), releasing it
(the guard destroyed), an assignment to a state field, or the body of a render,
which reads the state and writes pixels. -/
inductive StateAccess
  | lock
  | unlock
  | write_power (power : Bool)
  | write_default_brightness (value : Nat)
  | write_low_brightness (value : Nat)
  | write_effect (effect : EffectType)
  | write_params (params : EffectParams)
  | render_refresh
  | render_beat (volume : Int)
  deriving DecidableEq, Repr

/-- The steps of `RefreshEffect`, in program order. -/
def RefreshEffect_steps : List StateAccess :=
  [StateAccess.lock, StateAccess.render_refresh, StateAccess.unlock]

/-- The steps of `UpdateMusicEffect`, in program order. -/
def UpdateMusicEffect_steps (volume : Int) : List StateAccess :=
  [StateAccess.lock, StateAccess.render_beat volume, StateAccess.unlock]

/-- The steps of `SetPower`, in program order. -/
def SetPower_steps (power : Bool) : List StateAccess :=
  StateAccess.write_power power :: RefreshEffect_steps

/-- The steps of `SetBrightness`, in program order. -/
def SetBrightness_steps (default_brightness low_brightness : Nat) : List StateAccess :=
  StateAccess.write_default_brightness default_brightness ::
    StateAccess.write_low_brightness low_brightness :: RefreshEffect_steps

/-- The steps of `SetEffect(EffectType)`, in program order. -/
def SetEffect_steps (effect : EffectType) : List StateAccess :=
  StateAccess.write_effect effect :: RefreshEffect_steps

/-- The steps of `SetEffect(EffectType, EffectParams)`, in program order. -/
def SetEffectParams_steps (effect : EffectType) (params : EffectParams) : List StateAccess :=
  StateAccess.write_effect effect :: StateAccess.write_params params :: RefreshEffect_steps

/-- Whether every state access of a step sequence happens with the lock held;
`held` says whether the lock is held at the start. -/
def accesses_locked (held : Bool) : List StateAccess → Bool
  | [] => true
  | StateAccess.lock :: rest => accesses_locked true rest
  | StateAccess.unlock :: rest => accesses_locked false rest
  | _ :: rest => held && accesses_locked held rest

/-- Two threads running one method each on the same strip: the strip state, the
thread holding `state_mutex_`, the steps each thread has left, and what each
render saw (thread, effect type, effect parameters). -/
structure LockMachine where
  strip : LampCircularStrip
  owner : Option Nat
  thread0 : List StateAccess
  thread1 : List StateAccess
  observed : List (Nat × EffectType × EffectParams)
  deriving DecidableEq, Repr

/-- The effect of one step made by thread `tid`; `none` when the thread cannot
make it (the lock is held by the other thread). -/
def apply_access (tid : Nat) (m : LockMachine) : StateAccess → Option LockMachine
  | StateAccess.lock => if m.owner = none then some { m with owner := some tid } else none
  | StateAccess.unlock => some { m with owner := none }
  | StateAccess.write_power power => some { m with strip := { m.strip with power_ := power } }
  | StateAccess.write_default_brightness value =>
    some { m with strip := { m.strip with default_brightness_ := value } }
  | StateAccess.write_low_brightness value =>
    some { m with strip := { m.strip with low_brightness_ := value } }
  | StateAccess.write_effect effect =>
    some { m with strip := { m.strip with current_effect_ := effect } }
  | StateAccess.write_params params =>
    some { m with strip := { m.strip with effect_params_ := params } }
  | StateAccess.render_refresh =>
    some { m with
      observed := m.observed ++ [(tid, m.strip.current_effect_, m.strip.effect_params_)] }
  | StateAccess.render_beat _ =>
    some { m with
      observed := m.observed ++ [(tid, m.strip.current_effect_, m.strip.effect_params_)] }

/-- Thread `tid` (0 or 1) makes its next step. -/
def sched_step (m : LockMachine) (tid : Nat) : Option LockMachine :=
  if tid = 0 then
    match m.thread0 with
    | [] => none
    | a :: rest => apply_access 0 { m with thread0 := rest } a
  else
    match m.thread1 with
    | [] => none
    | a :: rest => apply_access 1 { m with thread1 := rest } a

/-- A schedule: the threads step in the order listed. -/
def run_schedule (m : LockMachine) : List Nat → Option LockMachine
  | [] => some m
  | tid :: rest =>
    match sched_step m tid with
    | none => none
    | some m1 => run_schedule m1 rest

/-- The effect parameters as first set by `LampController`: white base colour. -/
def white_params : EffectParams :=
  { base_color := { red := 255, green := 255, blue := 255 }
    interval := 200, length := 5, index := 0 }

/-- Effect parameters with a red base colour. -/
def red_params : EffectParams :=
  { base_color := { red := 255, green := 0, blue := 0 }, interval := 200, length := 5, index := 0 }

/-- Thread 0 is about to run `SetEffect(EFFECT_MUSIC, red_params)` and thread 1
`UpdateMusicEffect(200)` on a powered 12-pixel strip showing Static white. -/
def race_start : LockMachine :=
  { strip :=
      { max_leds_ := 12, default_brightness_ := 128, low_brightness_ := 4, power_ := true
        current_effect_ := EffectType.EFFECT_STATIC, effect_params_ := white_params }
    owner := none
    thread0 := SetEffectParams_steps EffectType.EFFECT_MUSIC red_params
    thread1 := UpdateMusicEffect_steps 200
    observed := [] }

/-! ## Alarms (`reminder/alarm.cc`) -/

/-- The enumeration `RepeatType` of `alarm.h`. -/
inductive RepeatType
  | REPEAT_ONCE
  | REPEAT_DAILY
  | REPEAT_WEEKLY
  | REPEAT_MONTHLY
  | REPEAT_YEARLY
  deriving DecidableEq, Repr

/-- The structure `alarm_event_t` of `alarm.h`; the unsigned fields are natural
numbers, `content` is the text of the `char[32]` buffer and `next_trigger` a
`time_t`. The field `repeat` is named `repeat_type` here. -/
structure alarm_event_t where
  id : Nat
  year : Nat
  month : Nat
  day : Nat
  hour : Nat
  minute : Nat
  repeat_type : RepeatType
  type : Nat
  content : String
  next_trigger : Int
  deriving DecidableEq, Repr

/-- The function `is_valid_date` of `alarm.cc`. -/
def is_valid_date (ev : alarm_event_t) : Bool :=
  if ev.year < 1970 ∨ ev.year > 2100 then false
  else if ev.month < 1 ∨ ev.month > 12 then false
  else if ev.day < 1 ∨ ev.day > 31 then false
  else if ev.month = 2 then
    let feb_days : Nat :=
      if ev.year % 4 = 0 ∧ (ev.year % 100 ≠ 0 ∨ ev.year % 400 = 0) then 29 else 28
    if ev.day > feb_days then false else true
  else if ev.month = 4 ∨ ev.month = 6 ∨ ev.month = 9 ∨ ev.month = 11 then
    if ev.day > 30 then false else true
  else true

/-- The number of days of a month of the Gregorian calendar, in the words of the
claim on `is_valid_date`: 31 for months 1, 3, 5, 7, 8, 10 and 12; 30 for months
4, 6, 9 and 11; for February 29 when the year is divisible by 4 and not by 100,
or divisible by 400, else 28. -/
def gregorian_days_in_month (year month : Nat) : Nat :=
  if month = 1 ∨ month = 3 ∨ month = 5 ∨ month = 7 ∨ month = 8 ∨ month = 10 ∨ month = 12 then 31
  else if month = 4 ∨ month = 6 ∨ month = 9 ∨ month = 11 then 30
  else if (year % 4 = 0 ∧ year % 100 ≠ 0) ∨ year % 400 = 0 then 29
  else 28

/-- The constant `MAX_ALARMS` of `alarm.h`. -/
def MAX_ALARMS : Nat := 10

/-- The constant `UINT16_MAX`. -/
def UINT16_MAX : Nat := 65535

/-- The libc type `struct tm`. -/
structure tm where
  tm_sec : Int
  tm_min : Int
  tm_hour : Int
  tm_mday : Int
  tm_mon : Int
  tm_year : Int
  tm_wday : Int
  tm_yday : Int
  tm_isdst : Int
  deriving DecidableEq, Repr

/-- What one call sees of libc's clock: the value of `time(NULL)` and the
functions `mktime` and `localtime_r` (they depend on the time zone). -/
structure LibcTime where
  now : Int
  mktime : tm → Int
  localtime_r : Int → tm

/-- The static variables of `alarm.cc`: the array `alarms[MAX_ALARMS]`,
`alarm_count` and `next_id`. Storage in NVS and the wake-up timer are outside
the state. -/
structure AlarmState where
  alarms : List alarm_event_t
  alarm_count : Nat
  next_id : Nat
  deriving DecidableEq, Repr

/-- An `alarm_event_t` with every byte zero. -/
def zero_alarm : alarm_event_t :=
  { id := 0, year := 0, month := 0, day := 0, hour := 0, minute := 0
    repeat_type := RepeatType.REPEAT_ONCE, type := 0, content := "", next_trigger := 0 }

/-- The state at program start: static storage is zero. -/
def AlarmState.init : AlarmState :=
  { alarms := List.replicate MAX_ALARMS zero_alarm, alarm_count := 0, next_id := 0 }

/-- The stored alarms: the first `alarm_count` entries of the array. -/
def stored (st : AlarmState) : List alarm_event_t :=
  st.alarms.take st.alarm_count

/-- The function `calculate_next_trigger` of `alarm.cc`. -/
def calculate_next_trigger (env : LibcTime) (ev : alarm_event_t) : Int :=
  let next_tm := env.localtime_r ev.next_trigger
  let finish (t : tm) : Int :=
    let next := env.mktime t
    if next > env.now then next else 0
  match ev.repeat_type with
  | RepeatType.REPEAT_DAILY => finish { next_tm with tm_mday := next_tm.tm_mday + 1 }
  | RepeatType.REPEAT_WEEKLY => finish { next_tm with tm_mday := next_tm.tm_mday + 7 }
  | RepeatType.REPEAT_MONTHLY =>
    if next_tm.tm_mon + 1 > 11 then
      finish { next_tm with tm_mon := 0, tm_year := next_tm.tm_year + 1 }
    else
      finish { next_tm with tm_mon := next_tm.tm_mon + 1 }
  | RepeatType.REPEAT_YEARLY => finish { next_tm with tm_year := next_tm.tm_year + 1 }
  | RepeatType.REPEAT_ONCE => 0

/-- The function `alarm_add` of `alarm.cc`: the code returned and the new state.
The event stored is the caller's event with `id` and `next_trigger` filled in. -/
def alarm_add (env : LibcTime) (st : AlarmState) (event : alarm_event_t) :
    esp_err_t × AlarmState :=
  if st.alarm_count ≥ MAX_ALARMS then (esp_err_t.ESP_ERR_NO_MEM, st)
  else if !is_valid_date event then (esp_err_t.ESP_ERR_INVALID_ARG, st)
  else
    let event1 := { event with id := st.next_id }
    let next_id1 := (st.next_id + 1) % 65536
    let next_id2 := if next_id1 = UINT16_MAX then 0 else next_id1
    let trigger_tm : tm :=
      { tm_sec := 0, tm_min := event1.minute, tm_hour := event1.hour, tm_mday := event1.day
        tm_mon := (event1.month : Int) - 1, tm_year := (event1.year : Int) - 1900
        tm_wday := 0, tm_yday := 0, tm_isdst := 0 }
    let event2 := { event1 with next_trigger := env.mktime trigger_tm }
    if event2.next_trigger < env.now ∧ event2.repeat_type ≠ RepeatType.REPEAT_ONCE then
      let event3 := { event2 with next_trigger := calculate_next_trigger env event2 }
      if event3.next_trigger < env.now then
        (esp_err_t.ESP_ERR_INVALID_ARG, { st with next_id := next_id2 })
      else
        (esp_err_t.ESP_OK,
          { alarms := st.alarms.set st.alarm_count event3
            alarm_count := (st.alarm_count + 1) % 256
            next_id := next_id2 })
    else
      (esp_err_t.ESP_OK,
        { alarms := st.alarms.set st.alarm_count event2
          alarm_count := (st.alarm_count + 1) % 256
          next_id := next_id2 })

/-- The index of the first alarm with the given id, as the loop of
`alarm_remove` finds it. -/
def find_alarm (id : Nat) : List alarm_event_t → Option Nat
  | [] => none
  | a :: rest => if a.id = id then some 0 else (find_alarm id rest).map (fun i => i + 1)

/-- The call `memmove(&alarms[i], &alarms[i+1], n * sizeof(alarm_event_t))`:
entries `i+1 .. i+n` are copied to `i .. i+n-1`; the others stay. -/
def memmove_down (alarms : List alarm_event_t) (i n : Nat) : List alarm_event_t :=
  alarms.take i ++ (alarms.drop (i + 1)).take n ++ alarms.drop (i + n)

/-- The function `alarm_remove` of `alarm.cc`: the code returned and the new
state. -/
def alarm_remove (st : AlarmState) (id : Nat) : esp_err_t × AlarmState :=
  match find_alarm id (stored st) with
  | some i =>
    (esp_err_t.ESP_OK,
      { st with
        alarms := memmove_down st.alarms i (st.alarm_count - i - 1)
        alarm_count := st.alarm_count - 1 })
  | none => (esp_err_t.ESP_ERR_NOT_FOUND, st)

/-- The function `alarm_clear_all` of `alarm.cc`. -/
def alarm_clear_all (st : AlarmState) : AlarmState :=
  { st with alarm_count := 0, alarms := List.replicate MAX_ALARMS zero_alarm }

/-- One call of the alarm interface. -/
inductive AlarmOp
  | add (env : LibcTime) (event : alarm_event_t)
  | remove (id : Nat)
  | clear_all

/-- The state after one call. -/
def alarm_step (st : AlarmState) : AlarmOp → AlarmState
  | AlarmOp.add env event => (alarm_add env st event).2
  | AlarmOp.remove id => (alarm_remove st id).2
  | AlarmOp.clear_all => alarm_clear_all st

/-- The state after a sequence of calls, left to right. -/
def run_alarms (st : AlarmState) : List AlarmOp → AlarmState
  | [] => st
  | op :: ops => run_alarms (alarm_step st op) ops

/-- A clock frozen at 0, for calls whose outcome does not depend on the time. -/
def frozen_clock : LibcTime :=
  { now := 0
    mktime := fun _ => 0
    localtime_r := fun _ =>
      { tm_sec := 0, tm_min := 0, tm_hour := 0, tm_mday := 1, tm_mon := 0, tm_year := 70
        tm_wday := 4, tm_yday := 0, tm_isdst := 0 } }

/-- A one-time reminder for 2030-01-01 08:00. -/
def new_year_alarm : alarm_event_t :=
  { id := 0, year := 2030, month := 1, day := 1, hour := 8, minute := 0
    repeat_type := RepeatType.REPEAT_ONCE, type := 0, content := "meeting", next_trigger := 0 }

/-- The calls `alarm_add(ev); alarm_remove(start)`, then the same with
`start + 1`, and so on, `count` times. -/
def add_remove_cycles (env : LibcTime) (ev : alarm_event_t) : Nat → Nat → List AlarmOp
  | _, 0 => []
  | start, count + 1 =>
    AlarmOp.add env ev :: AlarmOp.remove start :: add_remove_cycles env ev (start + 1) count

/-- The calls of the id wrap-around: one `alarm_add` whose alarm stays stored,
then 65534 times `alarm_add` followed by `alarm_remove` of the alarm just added
(ids 1 to 65534), then one more `alarm_add`. -/
def id_wrap_calls : List AlarmOp :=
  AlarmOp.add frozen_clock new_year_alarm ::
    (add_remove_cycles frozen_clock new_year_alarm 1 65534 ++
      [AlarmOp.add frozen_clock new_year_alarm])

/-- The number of `alarm_add` calls in a sequence of calls. -/
def adds_in : List AlarmOp → Nat
  | [] => 0
  | AlarmOp.add _ _ :: ops => adds_in ops + 1
  | _ :: ops => adds_in ops

/-- What holds of the alarm list while fewer than `k` ids have been handed out
and `k` is below the wrap-around: the count and the array are within
`MAX_ALARMS`, every stored id is below `next_id`, and the stored ids increase
along the list. -/
def alarms_ok (st : AlarmState) (k : Nat) : Prop :=
  st.alarm_count ≤ MAX_ALARMS ∧ st.alarms.length = MAX_ALARMS ∧ st.next_id ≤ k ∧
    (∀ a ∈ stored st, a.id < st.next_id) ∧
    ((stored st).map (fun a => a.id)).Pairwise (fun x y => x < y)

instance (st : AlarmState) (k : Nat) : Decidable (alarms_ok st k) := by
  unfold alarms_ok
  infer_instance

/-- An alarm list holding two alarms, with ids 0 and 1, as two `alarm_add` calls
leave it. -/
def two_alarms : AlarmState :=
  { alarms :=
      { new_year_alarm with id := 0 } :: { new_year_alarm with id := 1 } ::
        List.replicate 8 zero_alarm
    alarm_count := 2
    next_id := 2 }

/-! ## Shared lemmas: binary32 rounding -/

theorem round_half_even_intCast (m : Int) : round_half_even (m : ℚ) = m := by
  simp [round_half_even]

theorem round32_eq (x : ℚ) (e m : Int) (hx : x ≠ 0) (he : binade x = e)
    (hm : round_half_even (x / (2 : ℚ) ^ (e - 23)) = m)
    (hlt : |(m : ℚ) * (2 : ℚ) ^ (e - 23)| < (2 : ℚ) ^ (128 : Nat)) :
    round32 x = F32.finite ((m : ℚ) * (2 : ℚ) ^ (e - 23)) := by
  unfold round32
  rw [if_neg hx]
  simp only [he, hm]
  rw [if_neg (not_le.mpr hlt)]

theorem binade_sub_le (m k : Int) (hm0 : m ≠ 0) (hm : |m| < 2 ^ 24) (hk : -149 ≤ k) :
    binade ((m : ℚ) * (2 : ℚ) ^ k) - 23 ≤ k := by
  have h2k : (0 : ℚ) < (2 : ℚ) ^ k := zpow_pos (by norm_num) k
  have hmq : (0 : ℚ) < |(m : ℚ)| := abs_pos.mpr (by exact_mod_cast hm0)
  have hpos : 0 < |(m : ℚ) * (2 : ℚ) ^ k| := by
    rw [abs_mul, abs_of_pos h2k]
    exact mul_pos hmq h2k
  have hlt : |(m : ℚ) * (2 : ℚ) ^ k| < ((2 : ℕ) : ℚ) ^ (k + 24) := by
    rw [abs_mul, abs_of_pos h2k, zpow_add₀ (by norm_num), mul_comm]
    apply mul_lt_mul_of_pos_left _ h2k
    have : |(m : ℚ)| = ((|m| : Int) : ℚ) := by simp
    rw [this]
    have h24 : (((2 : ℕ) : ℚ)) ^ (24 : Int) = (((2 : Int) ^ 24 : Int) : ℚ) := by norm_num
    rw [h24]
    exact_mod_cast hm
  have hlog := (Int.lt_zpow_iff_log_lt (by norm_num : 1 < 2) hpos).mp hlt
  unfold binade
  rcases max_cases (Int.log 2 |(m : ℚ) * (2 : ℚ) ^ k|) (-126) with ⟨h, _⟩ | ⟨h, _⟩ <;>
    rw [h] <;> omega

/-- A value with at most 24 significant bits and an exponent in range is a
binary32 value: rounding returns it. -/
theorem round32_exact (m k : Int) (hm : |m| < 2 ^ 24) (hk : -149 ≤ k) (hk2 : k ≤ 104) :
    round32 ((m : ℚ) * (2 : ℚ) ^ k) = F32.finite ((m : ℚ) * (2 : ℚ) ^ k) := by
  by_cases hm0 : m = 0
  · simp [round32, hm0]
  have h2k : (0 : ℚ) < (2 : ℚ) ^ k := zpow_pos (by norm_num) k
  have hx : (m : ℚ) * (2 : ℚ) ^ k ≠ 0 :=
    mul_ne_zero (by exact_mod_cast hm0) (ne_of_gt h2k)
  have hsub := binade_sub_le m k hm0 hm hk
  obtain ⟨n, hn⟩ : ∃ n : Nat, k - (binade ((m : ℚ) * (2 : ℚ) ^ k) - 23) = (n : Int) :=
    ⟨(k - (binade ((m : ℚ) * (2 : ℚ) ^ k) - 23)).toNat, by omega⟩
  have hq : ((m : ℚ) * (2 : ℚ) ^ k) / (2 : ℚ) ^ (binade ((m : ℚ) * (2 : ℚ) ^ k) - 23) =
      ((m * 2 ^ n : Int) : ℚ) := by
    rw [mul_div_assoc, ← zpow_sub₀ (by norm_num : (2 : ℚ) ≠ 0), hn, zpow_natCast]
    push_cast
    rfl
  have hback : ((m * 2 ^ n : Int) : ℚ) *
      (2 : ℚ) ^ (binade ((m : ℚ) * (2 : ℚ) ^ k) - 23) = (m : ℚ) * (2 : ℚ) ^ k := by
    rw [← hq]
    field_simp
  have hres := round32_eq ((m : ℚ) * (2 : ℚ) ^ k) _ (m * 2 ^ n) hx rfl
    (by rw [hq]; exact round_half_even_intCast _)
    (by
      rw [hback, abs_mul, abs_of_pos h2k]
      have h1 : |(m : ℚ)| < (2 : ℚ) ^ (24 : Nat) := by
        have : |(m : ℚ)| = ((|m| : Int) : ℚ) := by simp
        rw [this]
        exact_mod_cast hm
      have h2 : (2 : ℚ) ^ k ≤ (2 : ℚ) ^ (104 : Int) :=
        zpow_le_zpow_right₀ (by norm_num) hk2
      calc |(m : ℚ)| * (2 : ℚ) ^ k < (2 : ℚ) ^ (24 : Nat) * (2 : ℚ) ^ (104 : Int) :=
            mul_lt_mul h1 h2 h2k (by positivity)
        _ = (2 : ℚ) ^ (128 : Nat) := by norm_num)
  rw [hres, hback]

theorem round32_of_eq (x : ℚ) (m k : Int) (hx : x = (m : ℚ) * (2 : ℚ) ^ k)
    (hm : |m| < 2 ^ 24) (hk : -149 ≤ k) (hk2 : k ≤ 104) : round32 x = F32.finite x := by
  subst hx
  exact round32_exact m k hm hk hk2

theorem round32_zero : round32 0 = F32.finite 0 := by
  simp [round32]

theorem vector_resize_length (v : List F32) (n : Nat) (value : F32) :
    (vector_resize v n value).length = n := by
  unfold vector_resize
  split
  · simp [List.length_take]; omega
  · simp; omega

theorem Process_guard (dsp : EspDsp) (st : AudioRhythmProcessor) (samples : List Int)
    (h : st.running_ = false ∨ st.callback_ = false ∨ samples = []) :
    Process dsp st samples = Except.ok (st, []) := by
  unfold Process
  rcases h with h | h | h <;> simp [h]

theorem F32_add_zero_zero : F32.add F32.zero F32.zero = F32.zero := by
  simp [F32.add, F32.zero, round32]

theorem of_int_15 : F32.of_int ((15 : Nat) : Int) = F32.finite 15 := by
  unfold F32.of_int
  exact round32_of_eq _ 15 0 (by norm_num) (by norm_num) (by norm_num) (by norm_num)

theorem of_int_9 : F32.of_int (((10 : Nat) : Int) - ((2 : Nat) : Int) + 1) = F32.finite 9 := by
  unfold F32.of_int
  exact round32_of_eq _ 9 0 (by norm_num) (by norm_num) (by norm_num) (by norm_num)

theorem foldl_add_zero (l : List F32) (h : ∀ e ∈ l, e = F32.zero) :
    l.foldl (fun (acc e : F32) => F32.add acc e) F32.zero = F32.zero := by
  induction l with
  | nil => rfl
  | cons a l ih =>
    have ha : a = F32.zero := h a (List.mem_cons_self _ _)
    rw [List.foldl_cons, ha, F32_add_zero_zero]
    exact ih (fun e he => h e (List.mem_cons_of_mem _ he))

theorem avg_energy_zero (l : List F32) (h : ∀ e ∈ l, e = F32.zero) :
    avg_energy l = F32.zero := by
  unfold avg_energy HISTORY_SIZE
  rw [foldl_add_zero l h, of_int_15]
  simp [F32.div, F32.zero, round32]

theorem dynamic_threshold_zero (l : List F32) (s : F32) (h : ∀ e ∈ l, e = F32.zero) :
    F32.lt (dynamic_threshold l s) F32.zero = false := by
  unfold dynamic_threshold BASE_THRESHOLD
  rw [avg_energy_zero l h]
  cases s <;> simp [F32.mul, F32.zero, round32, F32.lt]

theorem bass_energy_zero (n : Nat) (hn : 10 < n) :
    bass_energy (List.replicate n F32.zero) = Except.ok F32.zero := by
  unfold bass_energy BASS_BAND_END BASS_BAND_START
  rw [if_pos (by simpa using hn), of_int_9]
  have hget : ∀ k, (List.replicate n F32.zero).getD k F32.zero = F32.zero := by
    intro k
    by_cases hk : k < n
    · simp [List.getD_eq_getElem?_getD, List.getElem?_replicate, hk]
    · simp [List.getD_eq_getElem?_getD, List.getElem?_replicate, hk]
  simp only [hget]
  have : (List.range (10 - 2 + 1)).foldl (fun (acc : F32) (_ : Nat) => F32.add acc F32.zero)
      F32.zero = F32.zero := by
    simp [List.range_succ, F32_add_zero_zero]
  rw [this]
  simp [F32.div, F32.zero, round32]
theorem memcpy_short (dst src : List F32) (n : Int) (h : (dst.length : Int) < n) :
    memcpy dst src n = Except.error Fault.buffer_overrun := by
  unfold memcpy
  rw [if_pos (Or.inr (Or.inl h))]

theorem dsps_call_cases (routine : List F32 → Int → esp_err_t × (Nat → F32))
    (data : List F32) (N : Int) :
    dsps_call routine data N = Except.error Fault.buffer_overrun ∨
      ∃ buf, dsps_call routine data N = Except.ok ((routine data N).1, buf) := by
  unfold dsps_call
  split
  · exact Or.inl rfl
  · exact Or.inr ⟨_, rfl⟩

/-- The real transform, called with an output buffer shorter than `2 * length`
floats: `fft_execute` either runs past a buffer or returns an error code and
leaves the output buffer as it was. -/
theorem fft_execute_real (dsp : EspDsp) (cfg : fft_config_t) (input output : List F32)
    (htype : cfg.type = fft_type_t.FFT_REAL) (hshort : (output.length : Int) < 2 * cfg.length) :
    fft_execute dsp cfg input output = Except.error Fault.buffer_overrun ∨
      ∃ ret, ret ≠ esp_err_t.ESP_OK ∧
        fft_execute dsp cfg input output = Except.ok (ret, input, output) := by
  unfold fft_execute
  rw [htype]
  by_cases hempty : (input.isEmpty || output.isEmpty) = true
  · rw [if_pos hempty]
    exact Or.inr ⟨_, by decide, rfl⟩
  rw [if_neg hempty]
  simp only
  by_cases hwork : cfg.work_buffer = true
  swap
  · rw [if_pos (by simpa using hwork)]
    exact Or.inr ⟨_, by decide, rfl⟩
  rw [if_neg (by simpa using hwork)]
  by_cases hin : (input.length : Int) < cfg.length
  · rw [if_pos hin]
    exact Or.inl rfl
  rw [if_neg hin]
  rcases dsps_call_cases dsp.dsps_fft2r_fc32
      ((input.take cfg.length.toNat).flatMap (fun (x : F32) => [x, F32.zero])) cfg.length with
    h1 | ⟨work1, h1⟩
  · rw [h1]
    exact Or.inl rfl
  rw [h1]
  simp only
  split
  · rename_i hret
    exact Or.inr ⟨_, hret, rfl⟩
  rcases dsps_call_cases dsp.dsps_bit_rev2r_fc32 work1 cfg.length with h2 | ⟨work2, h2⟩
  · rw [h2]
    exact Or.inl rfl
  rw [h2]
  simp only
  split
  · rename_i hret
    exact Or.inr ⟨_, hret, rfl⟩
  rcases dsps_call_cases dsp.dsps_cplx2real_fc32 work2 cfg.length with h3 | ⟨work3, h3⟩
  · rw [h3]
    exact Or.inl rfl
  rw [h3]
  simp only
  split
  · rename_i hret
    exact Or.inr ⟨_, hret, rfl⟩
  rw [memcpy_short _ _ _ hshort]
  exact Or.inl rfl

/-- With the configuration that `Start` sets (real transform, 1024 points),
step 1 of `Process` either runs past a buffer inside `fft_execute` or leaves
the spectrum at its 512 zeros. -/
theorem Process_spectrum_real (dsp : EspDsp) (st : AudioRhythmProcessor) (samples : List Int)
    (htype : st.fft_config_.type = fft_type_t.FFT_REAL) (hlen : st.fft_config_.length = 1024) :
    Process_spectrum dsp st samples = Except.error Fault.buffer_overrun ∨
      Process_spectrum dsp st samples = Except.ok (List.replicate 512 F32.zero) := by
  unfold Process_spectrum
  have h512 : (Int.tdiv st.fft_config_.length 2).toNat = 512 := by
    rw [hlen]
    decide
  rw [h512]
  rcases fft_execute_real dsp st.fft_config_
      (samples.map (fun (s : Int) => F32.div (F32.of_int s) (F32.finite 32768)))
      (List.replicate 512 F32.zero) htype
      (by rw [hlen, List.length_replicate]; norm_num) with h | ⟨ret, _, h⟩
  · rw [h]
    exact Or.inl rfl
  · rw [h]
    exact Or.inr rfl

theorem fft_execute_no_buffer (dsp : EspDsp) (cfg : fft_config_t) (input output : List F32)
    (htype : cfg.type = fft_type_t.FFT_REAL) (hwork : cfg.work_buffer = false) :
    ∃ ret, fft_execute dsp cfg input output = Except.ok (ret, input, output) := by
  unfold fft_execute
  rw [htype]
  by_cases hempty : (input.isEmpty || output.isEmpty) = true
  · rw [if_pos hempty]
    exact ⟨_, rfl⟩
  rw [if_neg hempty]
  simp only
  rw [if_pos (by simp [hwork])]
  exact ⟨_, rfl⟩

/-- Without a work buffer the real transform returns before it touches a buffer. -/
theorem Process_spectrum_no_buffer (dsp : EspDsp) (st : AudioRhythmProcessor)
    (samples : List Int) (htype : st.fft_config_.type = fft_type_t.FFT_REAL)
    (hwork : st.fft_config_.work_buffer = false) :
    Process_spectrum dsp st samples =
      Except.ok (List.replicate (Int.tdiv st.fft_config_.length 2).toNat F32.zero) := by
  unfold Process_spectrum
  obtain ⟨ret, h⟩ := fft_execute_no_buffer dsp st.fft_config_
    (samples.map (fun (s : Int) => F32.div (F32.of_int s) (F32.finite 32768)))
    (List.replicate (Int.tdiv st.fft_config_.length 2).toNat F32.zero) htype hwork
  rw [h]

/-- Past the guard, `Process` is step 1, step 2 and then steps 3 and 4. -/
theorem Process_active (dsp : EspDsp) (st : AudioRhythmProcessor) (samples : List Int)
    (spectrum : List F32) (bass : F32)
    (hrun : st.running_ = true) (hcb : st.callback_ = true) (hne : samples ≠ [])
    (hspec : Process_spectrum dsp st samples = Except.ok spectrum)
    (hbass : bass_energy spectrum = Except.ok bass) :
    Process dsp st samples = Process_detect st bass := by
  unfold Process
  have hlen : samples.length ≠ 0 := fun h => hne (List.length_eq_zero.mp h)
  simp [hrun, hcb, hlen, hspec, hbass]
theorem Process_store_ok (st : AudioRhythmProcessor) (bass : F32)
    (hidx : st.history_index_ < st.energy_history_.length) :
    Process_store st bass = Except.ok
      { st with
        energy_history_ := st.energy_history_.set st.history_index_ bass
        history_index_ := (st.history_index_ + 1) % HISTORY_SIZE } := by
  unfold Process_store
  rw [if_pos hidx]

theorem set_zero_of_all_zero (l : List F32) (i : Nat) (h : ∀ e ∈ l, e = F32.zero) :
    l.set i F32.zero = l := by
  apply List.ext_getElem?
  intro j
  rw [List.getElem?_set]
  split
  · rename_i hij
    subst hij
    split
    · rename_i hlt
      rw [List.getElem?_eq_getElem hlt, h _ (List.getElem_mem hlt)]
    · rename_i hge
      rw [List.getElem?_eq_none (by omega)]
  · rfl

/-- Steps 3 and 4 on an all-zero history with bass energy zero: the index
advances, the history stays, and no callback call is made. -/
theorem Process_detect_zero (st : AudioRhythmProcessor)
    (hidx : st.history_index_ < st.energy_history_.length)
    (hzero : ∀ e ∈ st.energy_history_, e = F32.zero) :
    Process_detect st F32.zero =
      Except.ok ({ st with history_index_ := (st.history_index_ + 1) % HISTORY_SIZE }, []) := by
  unfold Process_detect
  rw [Process_store_ok st F32.zero hidx, set_zero_of_all_zero _ _ hzero]
  simp only
  unfold Process_decide
  simp only
  rw [dynamic_threshold_zero _ _ hzero]
  rfl

theorem history_ok_init : history_ok AudioRhythmProcessor.init := by
  simp [history_ok, AudioRhythmProcessor.init]

theorem fft_init_real (alloc_ok : Bool) (cfg : fft_config_t) :
    (fft_init alloc_ok cfg fft_type_t.FFT_REAL 1024).2.length = 1024 ∧
      (fft_init alloc_ok cfg fft_type_t.FFT_REAL 1024).2.type = fft_type_t.FFT_REAL := by
  cases alloc_ok <;> simp [fft_init]

theorem fft_cleanup_keeps (cfg : fft_config_t) :
    (fft_cleanup cfg).length = cfg.length ∧ (fft_cleanup cfg).type = cfg.type := by
  unfold fft_cleanup
  split <;> simp

theorem vector_resize_zero (v : List F32) (h : ∀ e ∈ v, e = F32.zero) :
    ∀ e ∈ vector_resize v HISTORY_SIZE F32.zero, e = F32.zero := by
  intro e he
  unfold vector_resize at he
  split at he
  · exact h e (List.mem_of_mem_take he)
  · rcases List.mem_append.mp he with h1 | h1
    · exact h e h1
    · exact List.eq_of_mem_replicate h1

/-- In a state that satisfies the invariant, a `Process` call past the guard
either runs past a buffer inside `fft_execute` or completes with bass energy
zero: the index advances and nothing else changes. -/
theorem Process_history_ok (dsp : EspDsp) (st : AudioRhythmProcessor) (samples : List Int)
    (hinv : history_ok st) (hrun : st.running_ = true) (hcb : st.callback_ = true)
    (hne : samples ≠ []) :
    Process dsp st samples = Except.error Fault.buffer_overrun ∨
      (Process_spectrum dsp st samples = Except.ok (List.replicate 512 F32.zero) ∧
        Process dsp st samples =
          Except.ok ({ st with history_index_ := (st.history_index_ + 1) % HISTORY_SIZE }, [])) := by
  obtain ⟨hidx, hshape, hzero⟩ := hinv
  rcases hshape with ⟨hlen, hcfg, htype⟩ | ⟨_, hstop⟩
  swap
  · rw [hstop] at hrun
    exact absurd hrun (by decide)
  rcases Process_spectrum_real dsp st samples htype hcfg with hspec | hspec
  · left
    unfold Process
    have hl : samples.length ≠ 0 := fun h => hne (List.length_eq_zero.mp h)
    simp [hrun, hcb, hl, hspec]
  · right
    refine ⟨hspec, ?_⟩
    rw [Process_active dsp st samples _ _ hrun hcb hne hspec (bass_energy_zero 512 (by norm_num))]
    exact Process_detect_zero st (by omega) hzero

theorem step_history_ok (dsp : EspDsp) (st : AudioRhythmProcessor) (op : Op)
    (hinv : history_ok st) :
    step dsp st op = Except.error Fault.buffer_overrun ∨
      ∃ st1, step dsp st op = Except.ok (st1, []) ∧ history_ok st1 ∧
        (st.energy_history_.length = 15 → st1.energy_history_.length = 15) ∧
        ((∃ a, op = Op.Start a) → st1.energy_history_.length = 15) := by
  have hinv0 := hinv
  obtain ⟨hidx, hshape, hzero⟩ := hinv
  cases op with
  | Start alloc_ok =>
    right
    refine ⟨Start alloc_ok st, rfl, ?_, ?_, ?_⟩
    · unfold Start
      split
      · refine ⟨hidx, Or.inl ⟨vector_resize_length _ _ _, (fft_init_real _ _).1,
          (fft_init_real _ _).2⟩, vector_resize_zero _ hzero⟩
      · exact hinv0
    · intro h15
      unfold Start
      split
      · exact vector_resize_length _ _ _
      · exact h15
    · intro _
      unfold Start
      split
      · exact vector_resize_length _ _ _
      · rename_i hr
        rcases hshape with ⟨hlen, _, _⟩ | ⟨_, hstop⟩
        · exact hlen
        · simp [hstop] at hr
  | Stop =>
    right
    refine ⟨Stop st, rfl, ?_, ?_, ?_⟩
    · unfold Stop
      split
      · refine ⟨hidx, ?_, hzero⟩
        rcases hshape with ⟨hlen, hcfg, htype⟩ | ⟨hnil, _⟩
        · left
          exact ⟨hlen, by rw [← hcfg]; exact (fft_cleanup_keeps _).1,
            by rw [← htype]; exact (fft_cleanup_keeps _).2⟩
        · right
          exact ⟨hnil, rfl⟩
      · exact hinv0
    · intro h15
      unfold Stop
      split <;> exact h15
    · rintro ⟨a, ha⟩
      cases ha
  | SetSensitivity s =>
    right
    exact ⟨SetSensitivity st s, rfl, ⟨hidx, hshape, hzero⟩, fun h => h,
      fun ⟨a, ha⟩ => by cases ha⟩
  | SetCallback cb =>
    right
    exact ⟨SetCallback st cb, rfl, ⟨hidx, hshape, hzero⟩, fun h => h,
      fun ⟨a, ha⟩ => by cases ha⟩
  | Process samples =>
    by_cases hguard : st.running_ = false ∨ st.callback_ = false ∨ samples = []
    · right
      exact ⟨st, Process_guard dsp st samples hguard, hinv0, fun h => h,
        fun ⟨a, ha⟩ => by cases ha⟩
    · have hrun : st.running_ = true := by
        cases h : st.running_
        · exact absurd (Or.inl h) hguard
        · rfl
      have hcb : st.callback_ = true := by
        cases h : st.callback_
        · exact absurd (Or.inr (Or.inl h)) hguard
        · rfl
      have hne : samples ≠ [] := fun h => hguard (Or.inr (Or.inr h))
      rcases Process_history_ok dsp st samples hinv0 hrun hcb hne with h | ⟨_, h⟩
      · left
        exact h
      · right
        refine ⟨_, h, ⟨Nat.mod_lt _ (by decide), hshape, hzero⟩, fun h15 => h15,
          fun ⟨a, ha⟩ => by cases ha⟩

theorem run_history_ok (dsp : EspDsp) (ops : List Op) :
    ∀ st, history_ok st →
      run dsp st ops = Except.error Fault.buffer_overrun ∨
        ∃ st1 calls, run dsp st ops = Except.ok (st1, calls) ∧ history_ok st1 ∧
          ((st.energy_history_.length = 15 ∨ ∃ a, Op.Start a ∈ ops) →
            st1.energy_history_.length = 15) ∧
          (∀ c ∈ calls, c = []) := by
  induction ops with
  | nil =>
    intro st hinv
    right
    refine ⟨st, [], rfl, hinv, ?_, by simp⟩
    rintro (h | ⟨a, ha⟩)
    · exact h
    · simp at ha
  | cons op ops ih =>
    intro st hinv
    rcases step_history_ok dsp st op hinv with hstep | ⟨st1, hstep, hinv1, hkeep, hstart⟩
    · left
      simp [run, hstep]
    rcases ih st1 hinv1 with hrun | ⟨st2, rest, hrun, hinv2, hlen2, hcalls⟩
    · left
      simp [run, hstep, hrun]
    right
    refine ⟨st2, [] :: rest, ?_, hinv2, ?_, ?_⟩
    · simp [run, hstep, hrun]
    · rintro (h | ⟨a, ha⟩)
      · exact hlen2 (Or.inl (hkeep h))
      · rcases List.mem_cons.mp ha with h | h
        · exact hlen2 (Or.inl (hstart ⟨a, h.symm⟩))
        · exact hlen2 (Or.inr ⟨a, h⟩)
    · intro c hc
      rcases List.mem_cons.mp hc with h | h
      · exact h
      · exact hcalls c h
theorem started_eq :
    started =
      { callback_ := true
        running_ := true
        sensitivity_ := F32.finite (5452595 / 4194304)
        fft_config_ := { type := fft_type_t.FFT_REAL, length := 1024, work_buffer := true }
        energy_history_ := List.replicate 15 F32.zero
        history_index_ := 0 } := by
  simp [started, SetCallback, Start, AudioRhythmProcessor.init, fft_init, vector_resize,
    HISTORY_SIZE]

theorem r32_200 : round32 (200 : ℚ) = F32.finite 200 :=
  round32_of_eq _ 200 0 (by norm_num) (by norm_num) (by norm_num) (by norm_num)

theorem dsps_call_ready (data : List F32) (N : Int) (h : 2 * N ≤ (data.length : Int)) :
    ∃ buf, dsps_call (fun (data : List F32) (_ : Int) =>
        (esp_err_t.ESP_OK, fun (i : Nat) => data.getD i F32.zero)) data N =
        Except.ok (esp_err_t.ESP_OK, buf) ∧ buf.length = data.length := by
  unfold dsps_call
  simp only
  rw [if_neg (by
    intro hc
    exact absurd hc.2 (not_lt.mpr h))]
  exact ⟨_, rfl, by simp⟩

/-- When the transform routines succeed on a block of at least 1024 samples,
`fft_execute` (real transform, 1024 points) copies 2048 floats into the
512-float spectrum: it runs past its end. -/
theorem fft_execute_ready (cfg : fft_config_t) (input output : List F32)
    (htype : cfg.type = fft_type_t.FFT_REAL) (hwork : cfg.work_buffer = true)
    (hlen : cfg.length = 1024) (hin : 1024 ≤ input.length) (hout : output.length = 512) :
    fft_execute dsps_ready cfg input output = Except.error Fault.buffer_overrun := by
  have hempty : ¬ (input.isEmpty || output.isEmpty) = true := by
    intro hc
    rcases Bool.or_eq_true_iff.mp hc with h | h
    · have : input.length = 0 := by simpa using h
      omega
    · have : output.length = 0 := by simpa using h
      omega
  have hwl : ((input.take cfg.length.toNat).flatMap (fun (x : F32) => [x, F32.zero])).length =
      2048 := by
    rw [hlen]
    have h1 : (1024 : Int).toNat = 1024 := rfl
    rw [h1]
    have : ∀ l : List F32, (l.flatMap (fun (x : F32) => [x, F32.zero])).length = 2 * l.length := by
      intro l
      induction l with
      | nil => rfl
      | cons a l ih =>
        rw [List.flatMap_cons, List.length_append, ih]
        simp only [List.length_cons, List.length_nil]
        omega
    rw [this, List.length_take]
    omega
  obtain ⟨w1, h1, l1⟩ := dsps_call_ready
    ((input.take cfg.length.toNat).flatMap (fun (x : F32) => [x, F32.zero])) cfg.length
    (by rw [hwl, hlen]; norm_num)
  obtain ⟨w2, h2, l2⟩ := dsps_call_ready w1 cfg.length (by rw [l1, hwl, hlen]; norm_num)
  obtain ⟨w3, h3, l3⟩ := dsps_call_ready w2 cfg.length (by rw [l2, l1, hwl, hlen]; norm_num)
  unfold fft_execute
  rw [htype, if_neg hempty]
  simp only [dsps_ready]
  rw [if_neg (by simp [hwork]), if_neg (by rw [hlen]; exact_mod_cast not_lt.mpr hin)]
  simp only [h1, h2, h3, ne_eq, not_true_eq_false, if_false]
  rw [memcpy_short _ _ _ (by rw [hout, hlen]; norm_num)]

/-- A `Process` call on a started detector with a block of 1024 samples, when
the transform routines succeed: the call runs past the end of `spectrum`. -/
theorem Process_overruns_spectrum :
    Process dsps_ready started (constant_block 0) = Except.error Fault.buffer_overrun := by
  have hspec : Process_spectrum dsps_ready started (constant_block 0) =
      Except.error Fault.buffer_overrun := by
    unfold Process_spectrum
    rw [fft_execute_ready _ _ _ (by rw [started_eq]) (by rw [started_eq]) (by rw [started_eq])
      (by rw [List.length_map]; unfold constant_block; rw [List.length_replicate])
      (by rw [started_eq, List.length_replicate]; rfl)]
  unfold Process
  rw [hspec]
  rw [started_eq]
  have hne : (constant_block 0).length ≠ 0 := by
    unfold constant_block
    rw [List.length_replicate]
    decide
  simp [hne]

/-- On a block shorter than `length` samples the real transform reads past the
end of `input`, whatever the transform routines do. -/
theorem fft_execute_short_input (dsp : EspDsp) (cfg : fft_config_t) (input output : List F32)
    (htype : cfg.type = fft_type_t.FFT_REAL) (hwork : cfg.work_buffer = true)
    (hin : (input.length : Int) < cfg.length) (hne : input ≠ []) (hout : output ≠ []) :
    fft_execute dsp cfg input output = Except.error Fault.buffer_overrun := by
  have hempty : ¬ (input.isEmpty || output.isEmpty) = true := by
    intro hc
    rcases Bool.or_eq_true_iff.mp hc with h | h
    · exact hne (List.isEmpty_iff.mp h)
    · exact hout (List.isEmpty_iff.mp h)
  unfold fft_execute
  rw [htype, if_neg hempty]
  simp only
  rw [if_neg (by simp [hwork]), if_pos hin]

/-- A `Process` call on a started detector with a block shorter than 1024
samples reads past the end of `input` inside `fft_execute`, whatever the
transform routines do. -/
theorem Process_overruns_input (dsp : EspDsp) (samples : List Int) (hne : samples ≠ [])
    (hshort : samples.length < 1024) :
    Process dsp started samples = Except.error Fault.buffer_overrun := by
  have hspec : Process_spectrum dsp started samples = Except.error Fault.buffer_overrun := by
    unfold Process_spectrum
    rw [fft_execute_short_input dsp _ _ _ (by rw [started_eq]) (by rw [started_eq])
      (by
        rw [started_eq, List.length_map]
        show (samples.length : Int) < 1024
        exact_mod_cast hshort)
      (by
        intro h
        exact hne (List.map_eq_nil_iff.mp h))
      (by
        intro h
        have hl := congrArg List.length h
        rw [List.length_replicate, List.length_nil, started_eq] at hl
        revert hl
        decide)]
  unfold Process
  rw [hspec, started_eq]
  have hl : samples.length ≠ 0 := fun h => hne (List.length_eq_zero.mp h)
  simp [hl]

/-! ## Beat decision and intensity -/

/-- C3, as stated, fails: `SetSensitivity` with a NaN argument stores the NaN,
which is no value of the interval `[0.5, 2.0]`: both comparisons of
`std::clamp` are false for it. -/
theorem SetSensitivity_keeps_nan :
    (SetSensitivity AudioRhythmProcessor.init F32.nan).sensitivity_ = F32.nan ∧
      F32.lt F32.nan (F32.finite (1 / 2)) = false ∧ F32.lt (F32.finite 2) F32.nan = false := by
  refine ⟨?_, rfl, rfl⟩
  simp [SetSensitivity, std_clamp, F32.lt]

/-- C3, amended. For every sensitivity input `s` that is not a NaN (the
infinities included), after `SetSensitivity(s)` the stored sensitivity equals
`clamp(s, 0.5, 2.0)`: `0.5` if `s < 0.5`, `2.0` if `s > 2.0`, `s` otherwise; it
is a finite value of `[0.5, 2.0]`, and no other detector field changes. -/
theorem SetSensitivity_clamps (st : AudioRhythmProcessor) (s : F32) (hs : s ≠ F32.nan) :
    (SetSensitivity st s).sensitivity_ =
        (if F32.lt s (F32.finite (1 / 2)) then F32.finite (1 / 2)
          else if F32.lt (F32.finite 2) s then F32.finite 2 else s) ∧
      (∃ q : ℚ, (SetSensitivity st s).sensitivity_ = F32.finite q ∧ 1 / 2 ≤ q ∧ q ≤ 2) ∧
      (SetSensitivity st s).callback_ = st.callback_ ∧
      (SetSensitivity st s).running_ = st.running_ ∧
      (SetSensitivity st s).fft_config_ = st.fft_config_ ∧
      (SetSensitivity st s).energy_history_ = st.energy_history_ ∧
      (SetSensitivity st s).history_index_ = st.history_index_ := by
  refine ⟨rfl, ?_, rfl, rfl, rfl, rfl, rfl⟩
  simp only [SetSensitivity, std_clamp]
  cases s with
  | finite q =>
    by_cases h1 : q < 1 / 2
    · have e1 : F32.lt (F32.finite q) (F32.finite (1 / 2)) = true := by
        simp only [F32.lt, decide_eq_true_eq]
        exact h1
      rw [if_pos e1]
      exact ⟨1 / 2, rfl, le_refl _, by norm_num⟩
    · have e1 : ¬ F32.lt (F32.finite q) (F32.finite (1 / 2)) = true := by
        simp only [F32.lt, decide_eq_true_eq]
        exact h1
      rw [if_neg e1]
      by_cases h2 : 2 < q
      · have e2 : F32.lt (F32.finite 2) (F32.finite q) = true := by
          simp only [F32.lt, decide_eq_true_eq]
          exact h2
        rw [if_pos e2]
        exact ⟨2, rfl, by norm_num, le_refl _⟩
      · have e2 : ¬ F32.lt (F32.finite 2) (F32.finite q) = true := by
          simp only [F32.lt, decide_eq_true_eq]
          exact h2
        rw [if_neg e2]
        exact ⟨q, rfl, not_lt.mp h1, not_lt.mp h2⟩
  | infinite neg =>
    cases neg
    · exact ⟨2, rfl, by norm_num, le_refl _⟩
    · exact ⟨1 / 2, rfl, le_refl _, by norm_num⟩
  | nan => exact absurd rfl hs

/-- Witness of C3 (amended): `SetSensitivity(3.0)` on a new detector stores `2.0`. -/
theorem SetSensitivity_clamps_witness :
    (SetSensitivity AudioRhythmProcessor.init (F32.finite 3)).sensitivity_ =
      (if F32.lt (F32.finite 3) (F32.finite (1 / 2)) then F32.finite (1 / 2)
        else if F32.lt (F32.finite 2) (F32.finite 3) then F32.finite 2 else F32.finite 3) :=
  (SetSensitivity_clamps AudioRhythmProcessor.init (F32.finite 3) (by simp)).1

/-! ## Start, Stop and the energy history -/

/-- C6. Every sequence of `Start`, `Stop`, `SetSensitivity`, `SetCallback` and
`Process` calls on a newly constructed detector either stops inside
`fft_execute`, at an access past the end of a buffer, or runs to a state whose
history index is below 15 and whose history, when the sequence contains a
`Start`, holds exactly 15 entries: no call indexes the history (or the
spectrum) out of bounds. -/
theorem reachable_history_bounds (dsp : EspDsp) (ops : List Op) :
    run dsp AudioRhythmProcessor.init ops = Except.error Fault.buffer_overrun ∨
      ∃ st calls, run dsp AudioRhythmProcessor.init ops = Except.ok (st, calls) ∧
        st.history_index_ < 15 ∧
        ((∃ a, Op.Start a ∈ ops) → st.energy_history_.length = 15) := by
  rcases run_history_ok dsp ops AudioRhythmProcessor.init history_ok_init with
    h | ⟨st, calls, hrun, hinv, hlen, _⟩
  · exact Or.inl h
  · exact Or.inr ⟨st, calls, hrun, hinv.1, fun h => hlen (Or.inr h)⟩

/-! ## Constant energy and spikes -/

/-- C9. When the detector is not running, or no callback is registered, or the
block is empty, `Process` makes no callback call and returns the detector state
as it was: history, index and sensitivity (and every other field) unchanged. -/
theorem Process_noop (dsp : EspDsp)
    (st : AudioRhythmProcessor) (samples : List Int)
    (h : st.running_ = false ∨ st.callback_ = false ∨ samples.length = 0) :
    ∃ st1, Process dsp st samples = Except.ok (st1, []) ∧
      st1.energy_history_ = st.energy_history_ ∧ st1.history_index_ = st.history_index_ ∧
      st1.sensitivity_ = st.sensitivity_ ∧ st1 = st := by
  refine ⟨st, ?_, rfl, rfl, rfl, rfl⟩
  apply Process_guard
  rcases h with h | h | h
  · exact Or.inl h
  · exact Or.inr (Or.inl h)
  · exact Or.inr (Or.inr (List.length_eq_zero.mp h))

/-- Witness of C9: a newly constructed detector (not running, no callback). -/
theorem Process_noop_witness :
    ∃ st1, Process dsps_ready AudioRhythmProcessor.init (constant_block 0) =
        Except.ok (st1, []) ∧
      st1.energy_history_ = AudioRhythmProcessor.init.energy_history_ ∧
      st1.history_index_ = AudioRhythmProcessor.init.history_index_ ∧
      st1.sensitivity_ = AudioRhythmProcessor.init.sensitivity_ ∧
      st1 = AudioRhythmProcessor.init :=
  Process_noop dsps_ready AudioRhythmProcessor.init (constant_block 0) (Or.inl rfl)


/-! ## Beat rendering -/

theorem static_cast_uint8_not_division (x : ℚ) :
    static_cast_uint8 x ≠ Except.error Fault.division_by_zero := by
  unfold static_cast_uint8
  split <;> simp

theorem scale_color_not_division (color : StripColor) (factor : ℚ) :
    scale_color color factor ≠ Except.error Fault.division_by_zero := by
  unfold scale_color
  split
  · rename_i f h
    intro hf
    simp only [Except.error.injEq] at hf
    rw [hf] at h
    exact static_cast_uint8_not_division _ h
  · split
    · rename_i f h
      intro hf
      simp only [Except.error.injEq] at hf
      rw [hf] at h
      exact static_cast_uint8_not_division _ h
    · split
      · rename_i f h
        intro hf
        simp only [Except.error.injEq] at hf
        rw [hf] at h
        exact static_cast_uint8_not_division _ h
      · simp

theorem music_pixel_not_division (sin : ℚ → ℚ) (max_leds : Nat) (dynamic_color : StripColor)
    (volume : Int) (i : Nat) (hN : max_leds ≠ 0) :
    music_pixel sin max_leds dynamic_color volume i ≠ Except.error Fault.division_by_zero := by
  have hq : (max_leds : ℚ) ≠ 0 := Nat.cast_ne_zero.mpr hN
  simp only [music_pixel, checked_div, hq, if_false]
  exact scale_color_not_division _ _

theorem music_loop_not_division (sin : ℚ → ℚ) (max_leds : Nat) (dynamic_color : StripColor)
    (volume : Int) (hN : max_leds ≠ 0) (pixels : List Nat) :
    music_loop sin max_leds dynamic_color volume pixels ≠
      Except.error Fault.division_by_zero := by
  induction pixels with
  | nil => simp [music_loop]
  | cons i rest ih =>
    unfold music_loop
    split
    · rename_i f h
      intro hf
      simp only [Except.error.injEq] at hf
      rw [hf] at h
      exact music_pixel_not_division sin max_leds dynamic_color volume i hN h
    · split
      · rename_i f h
        intro hf
        simp only [Except.error.injEq] at hf
        rw [hf] at h
        exact ih h
      · simp

/-- C10. For every strip state and intensity, `UpdateMusicEffect` makes no
base-class call at all (no pixel write, no `Show`) when the pixel count is 0, or
power is off, or the current effect is not Music; and it never divides by zero:
the division by the pixel count is reached only with a non-zero count. -/
theorem UpdateMusicEffect_guarded (sin : ℚ → ℚ) (st : LampCircularStrip) (volume : Int) :
    (st.max_leds_ = 0 ∨ st.power_ = false ∨ st.current_effect_ ≠ EffectType.EFFECT_MUSIC →
        UpdateMusicEffect sin st volume = Except.ok []) ∧
      UpdateMusicEffect sin st volume ≠ Except.error Fault.division_by_zero := by
  constructor
  · intro h
    unfold UpdateMusicEffect
    by_cases h0 : st.max_leds_ = 0
    · simp [h0]
    · rcases h with h | h | h
      · exact absurd h h0
      · simp [h0, h]
      · simp [h0, h]
  · unfold UpdateMusicEffect
    split
    · simp
    · rename_i h0
      split
      · simp
      · split
        · rename_i f h
          intro hf
          simp only [Except.error.injEq] at hf
          rw [hf] at h
          exact scale_color_not_division _ _ h
        · split
          · rename_i f h
            intro hf
            simp only [Except.error.injEq] at hf
            rw [hf] at h
            exact music_loop_not_division sin _ _ volume h0 _ h
          · simp

/-- Witness of C10: a 12-pixel strip in Music mode with power off. -/
theorem UpdateMusicEffect_guarded_witness :
    UpdateMusicEffect (fun _ => 0)
        { max_leds_ := 12, default_brightness_ := 128, low_brightness_ := 4, power_ := false,
          current_effect_ := EffectType.EFFECT_MUSIC,
          effect_params_ :=
            { base_color := { red := 255, green := 120, blue := 5 },
              interval := 200, length := 5, index := 0 } } 200 = Except.ok [] :=
  (UpdateMusicEffect_guarded (fun _ => 0) _ 200).1 (Or.inr (Or.inl rfl))

/-! ## Refreshing the effect -/

/-- C11. With power off, whatever the effect type, the effect parameters and the
brightness, `RefreshEffect` makes exactly one base-class call, the fill
`SetAllColor` with black `(0, 0, 0)`: no effect is dispatched. -/
theorem RefreshEffect_power_off (st : LampCircularStrip) (hoff : st.power_ = false) :
    RefreshEffect st =
      Except.ok [StripCall.SetAllColor { red := 0, green := 0, blue := 0 }] := by
  simp [RefreshEffect, hoff]

/-- Witness of C11: a strip in Scroll mode with power off. -/
theorem RefreshEffect_power_off_witness :
    RefreshEffect
        { music_strip with power_ := false, current_effect_ := EffectType.EFFECT_SCROLL } =
      Except.ok [StripCall.SetAllColor { red := 0, green := 0, blue := 0 }] :=
  RefreshEffect_power_off _ rfl

/-! ## Brightness levels -/

set_option maxRecDepth 100000 in
theorem builtin_clz_small :
    ∀ v : Fin 257, 0 < v.val →
      builtin_clz v.val ≤ 31 ∧ 2 ^ (31 - builtin_clz v.val) ≤ v.val ∧
        v.val < 2 ^ (31 - builtin_clz v.val + 1) ∧ 31 - builtin_clz v.val ≤ 8 := by
  decide

/-- For a brightness in `0..255` the result is a level `L ≤ 8` with
`2 ^ L ≤ brightness + 1 < 2 ^ (L + 1)`. -/
theorem BrightnessToLevel_in_range (b : Int) (h0 : 0 ≤ b) (h255 : b ≤ 255) :
    ∃ L : Nat, BrightnessToLevel b = (L : Int) ∧ L ≤ 8 ∧ 2 ^ L ≤ b.toNat + 1 ∧
      b.toNat + 1 < 2 ^ (L + 1) := by
  have hv : b.toNat + 1 < 257 := by omega
  obtain ⟨h31, hlo, hhi, h8⟩ := builtin_clz_small ⟨b.toNat + 1, hv⟩ (Nat.succ_pos _)
  refine ⟨31 - builtin_clz (b.toNat + 1), ?_, h8, hlo, hhi⟩
  simp only [BrightnessToLevel, not_lt.mpr h0, if_false, gt_iff_lt, not_lt.mpr h255]
  simp only [] at h31
  omega

theorem BrightnessToLevel_above (b : Int) (h : 255 < b) :
    BrightnessToLevel b = BrightnessToLevel 255 := by
  have h0 : ¬ b < 0 := by omega
  simp only [BrightnessToLevel, h0, if_false, gt_iff_lt, h, if_true]
  rfl

theorem BrightnessToLevel_below (b : Int) (h : b < 0) :
    BrightnessToLevel b = BrightnessToLevel 0 := by
  simp only [BrightnessToLevel, h, if_true]
  rfl

theorem BrightnessToLevel_top : BrightnessToLevel 255 = 8 := by decide

theorem BrightnessToLevel_bottom : BrightnessToLevel 0 = 0 := by decide

/-- C12. For every level in `0..8`,
`BrightnessToLevel (LevelToBrightness level) = level`. -/
theorem BrightnessToLevel_LevelToBrightness (level : Int) (h0 : 0 ≤ level) (h8 : level ≤ 8) :
    BrightnessToLevel (LevelToBrightness level) = level := by
  interval_cases level <;> decide

/-- Witness of C12: level 5, brightness 31. -/
theorem BrightnessToLevel_LevelToBrightness_witness :
    LevelToBrightness 5 = 31 ∧ BrightnessToLevel (LevelToBrightness 5) = 5 :=
  ⟨by decide, BrightnessToLevel_LevelToBrightness 5 (by decide) (by decide)⟩

/-- C13. `LevelToBrightness level = 2 ^ level - 1` for every level in `0..8`; it
is strictly increasing on `0..8`, with value 0 at level 0 and 255 at level 8; a
level below 0 gives the value at 0 and a level above 8 the value at 8. -/
theorem LevelToBrightness_spec :
    (∀ level : Int, 0 ≤ level → level ≤ 8 →
        LevelToBrightness level = (2 : Int) ^ level.toNat - 1) ∧
      (∀ a b : Int, 0 ≤ a → a < b → b ≤ 8 → LevelToBrightness a < LevelToBrightness b) ∧
      LevelToBrightness 0 = 0 ∧ LevelToBrightness 8 = 255 ∧
      (∀ level : Int, level < 0 → LevelToBrightness level = 0) ∧
      (∀ level : Int, 8 < level → LevelToBrightness level = 255) := by
  refine ⟨?_, ?_, by decide, by decide, ?_, ?_⟩
  · intro level h0 h8
    interval_cases level <;> decide
  · intro a b h0 hab h8
    have ha : a ≤ 8 := by omega
    have hb : 0 ≤ b := by omega
    interval_cases a <;> interval_cases b <;> decide
  · intro level h
    simp only [LevelToBrightness, h, if_true]
    decide
  · intro level h
    have h0 : ¬ level < 0 := by omega
    simp only [LevelToBrightness, h0, if_false, gt_iff_lt, h, if_true]
    decide

/-- Witness of C13: level 3 gives `2 ^ 3 - 1 = 7`. -/
theorem LevelToBrightness_spec_witness : LevelToBrightness 3 = (2 : Int) ^ (3 : Int).toNat - 1 :=
  LevelToBrightness_spec.1 3 (by decide) (by decide)

/-- C14. For every brightness `b ≥ 0`, `BrightnessToLevel b` is
`min 8 ⌊log2 (b + 1)⌋`; for `0 ≤ b ≤ 255` it is the one `L` in `0..8` with
`2 ^ L ≤ b + 1 < 2 ^ (L + 1)`; for `b > 255` it is 8; for `b < 0` it is 0; the
result is always in `0..8`. -/
theorem BrightnessToLevel_spec :
    (∀ b : Int, 0 ≤ b →
        BrightnessToLevel b = ((min 8 (Nat.log 2 (b.toNat + 1)) : Nat) : Int)) ∧
      (∀ b : Int, 0 ≤ b → b ≤ 255 → ∀ L : Nat,
        BrightnessToLevel b = (L : Int) ↔
          (L ≤ 8 ∧ 2 ^ L ≤ b.toNat + 1 ∧ b.toNat + 1 < 2 ^ (L + 1))) ∧
      (∀ b : Int, 255 < b → BrightnessToLevel b = 8) ∧
      (∀ b : Int, b < 0 → BrightnessToLevel b = 0) ∧
      (∀ b : Int, 0 ≤ BrightnessToLevel b ∧ BrightnessToLevel b ≤ 8) := by
  have habove : ∀ b : Int, 255 < b → BrightnessToLevel b = 8 := fun b h => by
    rw [BrightnessToLevel_above b h, BrightnessToLevel_top]
  have hbelow : ∀ b : Int, b < 0 → BrightnessToLevel b = 0 := fun b h => by
    rw [BrightnessToLevel_below b h, BrightnessToLevel_bottom]
  refine ⟨?_, ?_, habove, hbelow, ?_⟩
  · intro b h0
    by_cases h255 : b ≤ 255
    · obtain ⟨L, hL, h8, hlo, hhi⟩ := BrightnessToLevel_in_range b h0 h255
      rw [hL, Nat.log_eq_of_pow_le_of_lt_pow hlo hhi, Nat.min_eq_right h8]
    · have hb : 255 < b := by omega
      have hlog : 8 ≤ Nat.log 2 (b.toNat + 1) :=
        Nat.le_log_of_pow_le (by norm_num) (by norm_num; omega)
      rw [habove b hb, Nat.min_eq_left hlog]
      rfl
  · intro b h0 h255 L
    obtain ⟨L0, hL0, h8, hlo, hhi⟩ := BrightnessToLevel_in_range b h0 h255
    rw [hL0]
    constructor
    · intro h
      have : L0 = L := by exact_mod_cast h
      subst this
      exact ⟨h8, hlo, hhi⟩
    · rintro ⟨_, hlo1, hhi1⟩
      have h1 := Nat.log_eq_of_pow_le_of_lt_pow hlo hhi
      have h2 := Nat.log_eq_of_pow_le_of_lt_pow hlo1 hhi1
      rw [← h1, ← h2]
  · intro b
    by_cases h0 : 0 ≤ b
    · by_cases h255 : b ≤ 255
      · obtain ⟨L, hL, h8, _, _⟩ := BrightnessToLevel_in_range b h0 h255
        rw [hL]
        omega
      · rw [habove b (by omega)]
        decide
    · rw [hbelow b (by omega)]
      decide

/-- Witness of C14: brightness 128 has level 7, since `2 ^ 7 ≤ 129 < 2 ^ 8`. -/
theorem BrightnessToLevel_spec_witness :
    BrightnessToLevel 128 = ((7 : Nat) : Int) :=
  (BrightnessToLevel_spec.2.1 128 (by decide) (by decide) 7).2
    ⟨by decide, by decide, by decide⟩

/-! ## Channel scaling -/

theorem static_cast_uint8_of_range (x : ℚ) (h0 : 0 ≤ x) (h256 : x < 256) :
    static_cast_uint8 x = Except.ok ⌊x⌋.toNat := by
  have htrunc : Int.tdiv x.num (x.den : Int) = ⌊x⌋ := by
    rw [Rat.floor_def]
    exact Int.tdiv_eq_ediv (Rat.num_nonneg.mpr h0) (by positivity)
  have hlo : 0 ≤ ⌊x⌋ := Int.floor_nonneg.mpr h0
  have hhi : ⌊x⌋ ≤ 255 := by
    have : ⌊x⌋ < 256 := Int.floor_lt.mpr (by exact_mod_cast h256)
    omega
  simp only [static_cast_uint8, htrunc, hlo, hhi, and_self, if_true]

theorem static_cast_uint8_above (x : ℚ) (h : 256 ≤ x) :
    static_cast_uint8 x = Except.error Fault.cast_out_of_range := by
  have h0 : 0 ≤ x := le_trans (by norm_num) h
  have htrunc : Int.tdiv x.num (x.den : Int) = ⌊x⌋ := by
    rw [Rat.floor_def]
    exact Int.tdiv_eq_ediv (Rat.num_nonneg.mpr h0) (by positivity)
  have hhi : ¬ ⌊x⌋ ≤ 255 := by
    have : (256 : Int) ≤ ⌊x⌋ := Int.le_floor.mpr (by exact_mod_cast h)
    omega
  simp only [static_cast_uint8, htrunc, hhi, and_false, if_false]

/-- A channel `c` scaled by `d / 255`, both in `0..255`: the cast gives
`⌊c * d / 255⌋`. -/
theorem static_cast_uint8_channel (c d : Nat) (hc : c ≤ 255) (hd : d ≤ 255) :
    static_cast_uint8 ((c : ℚ) * (((d : Int) : ℚ) / 255)) = Except.ok (c * d / 255) := by
  have hform : (c : ℚ) * (((d : Int) : ℚ) / 255) =
      (((c * d : Nat) : Int) : ℚ) / ((255 : Nat) : ℚ) := by
    push_cast
    ring
  have hprod : c * d ≤ 255 * 255 := Nat.mul_le_mul hc hd
  have h0 : (0 : ℚ) ≤ (((c * d : Nat) : Int) : ℚ) / ((255 : Nat) : ℚ) := by positivity
  have h256 : (((c * d : Nat) : Int) : ℚ) / ((255 : Nat) : ℚ) < 256 := by
    rw [div_lt_iff₀ (by norm_num)]
    have : ((c * d : Nat) : ℚ) ≤ 255 * 255 := by exact_mod_cast hprod
    push_cast at this ⊢
    linarith
  rw [hform, static_cast_uint8_of_range _ h0 h256, Rat.floor_intCast_div_natCast]
  congr 1

theorem scale_color_brightness (color : StripColor) (d : Nat)
    (hr : color.red ≤ 255) (hg : color.green ≤ 255) (hb : color.blue ≤ 255) (hd : d ≤ 255) :
    scale_color color (((d : Int) : ℚ) / 255) =
      Except.ok
        { red := color.red * d / 255, green := color.green * d / 255,
          blue := color.blue * d / 255 } := by
  simp only [scale_color, static_cast_uint8_channel _ _ hr hd,
    static_cast_uint8_channel _ _ hg hd, static_cast_uint8_channel _ _ hb hd]

/-- C15, the failing input: a powered strip in Music mode with base colour
`(255, 120, 5)` and intensity 300 (bass energy 1.5). The red channel is
`255 * 300 / 255 = 300`, which `static_cast<uint8_t>` cannot represent: the
conversion is undefined, not a clamp to 255. -/
theorem UpdateMusicEffect_oversaturated :
    ∀ sin : ℚ → ℚ, UpdateMusicEffect sin music_strip 300 =
      Except.error Fault.cast_out_of_range := by
  intro sin
  have hred : static_cast_uint8 (((255 : Nat) : ℚ) * (((300 : Int) : ℚ) / 255)) =
      Except.error Fault.cast_out_of_range :=
    static_cast_uint8_above _ (by norm_num)
  simp only [UpdateMusicEffect, music_strip, scale_color, hred]
  simp

/-- C16. With power on and effect Static, for every base colour `(r, g, b)` with
channels in `0..255` and every default brightness `d` in `0..255`,
`RefreshEffect` makes the one call `SetAllColor` with the colour
`(⌊r * d / 255⌋, ⌊g * d / 255⌋, ⌊b * d / 255⌋)`; for `d = 255` this is the base
colour and for `d = 0` black. -/
theorem RefreshEffect_static (st : LampCircularStrip)
    (hon : st.power_ = true) (hstatic : st.current_effect_ = EffectType.EFFECT_STATIC)
    (hr : st.effect_params_.base_color.red ≤ 255)
    (hg : st.effect_params_.base_color.green ≤ 255)
    (hb : st.effect_params_.base_color.blue ≤ 255)
    (hd : st.default_brightness_ ≤ 255) :
    RefreshEffect st =
        Except.ok [StripCall.SetAllColor
          { red := st.effect_params_.base_color.red * st.default_brightness_ / 255
            green := st.effect_params_.base_color.green * st.default_brightness_ / 255
            blue := st.effect_params_.base_color.blue * st.default_brightness_ / 255 }] ∧
      (st.default_brightness_ = 255 →
        RefreshEffect st = Except.ok [StripCall.SetAllColor st.effect_params_.base_color]) ∧
      (st.default_brightness_ = 0 →
        RefreshEffect st =
          Except.ok [StripCall.SetAllColor { red := 0, green := 0, blue := 0 }]) := by
  have hmain : RefreshEffect st =
      Except.ok [StripCall.SetAllColor
        { red := st.effect_params_.base_color.red * st.default_brightness_ / 255
          green := st.effect_params_.base_color.green * st.default_brightness_ / 255
          blue := st.effect_params_.base_color.blue * st.default_brightness_ / 255 }] := by
    simp only [RefreshEffect, hon, Bool.not_true, Bool.false_eq_true, if_false, ApplyBrightness,
      scale_color_brightness _ _ hr hg hb hd, hstatic]
  refine ⟨hmain, ?_, ?_⟩
  · intro h
    rw [hmain, h]
    simp
  · intro h
    rw [hmain, h]
    simp

/-- Witness of C16: base colour `(255, 120, 5)` at brightness 128 gives
`(128, 60, 2)`. -/
theorem RefreshEffect_static_witness :
    RefreshEffect { music_strip with current_effect_ := EffectType.EFFECT_STATIC } =
      Except.ok [StripCall.SetAllColor { red := 128, green := 60, blue := 2 }] :=
  (RefreshEffect_static { music_strip with current_effect_ := EffectType.EFFECT_STATIC }
    rfl rfl (by decide) (by decide) (by decide) (by decide)).1

/-! ## Transform setup -/

theorem testBit_top (m k : Nat) (hlo : 2 ^ k ≤ m) (hhi : m < 2 ^ (k + 1)) :
    m.testBit k = true := by
  have hdiv : m / 2 ^ k = 1 :=
    Nat.div_eq_of_lt_le (by omega) (by rw [pow_succ] at hhi; omega)
  rw [Nat.testBit_to_div_mod, hdiv]
  rfl

theorem land_pred_eq_zero_iff (n : Nat) (hn : 0 < n) :
    Nat.land n (n - 1) = 0 ↔ ∃ k : Nat, n = 2 ^ k := by
  constructor
  · intro h
    refine ⟨Nat.log 2 n, ?_⟩
    have hlo : 2 ^ Nat.log 2 n ≤ n := Nat.pow_log_le_self 2 (by omega)
    have hhi : n < 2 ^ (Nat.log 2 n + 1) := Nat.lt_pow_succ_log_self (by norm_num) n
    by_contra hne
    have h1 := testBit_top n _ hlo hhi
    have h2 := testBit_top (n - 1) (Nat.log 2 n) (by omega) (by omega)
    have h3 : (Nat.land n (n - 1)).testBit (Nat.log 2 n) = true := by
      show (n &&& (n - 1)).testBit (Nat.log 2 n) = true
      rw [Nat.testBit_and, h1, h2]
      rfl
    rw [h] at h3
    simp at h3
  · rintro ⟨k, rfl⟩
    show 2 ^ k &&& (2 ^ k - 1) = 0
    rw [Nat.and_pow_two_sub_one_eq_mod, Nat.mod_self]

/-- For `FFT_RADIX_2`, a length that is not a power of two is rejected. -/
theorem fft_init_radix2_rejects (alloc_ok : Bool) (cfg : fft_config_t) (length : Int)
    (h : ¬ ∃ k : Nat, length = 2 ^ k) :
    (fft_init alloc_ok cfg fft_type_t.FFT_RADIX_2 length).1 = esp_err_t.ESP_ERR_INVALID_ARG := by
  unfold fft_init
  by_cases hpos : length ≤ 0
  · simp [hpos]
  · have hland : Nat.land length.toNat (length.toNat - 1) ≠ 0 := by
      intro h0
      obtain ⟨k, hk⟩ := (land_pred_eq_zero_iff length.toNat (by omega)).mp h0
      apply h
      refine ⟨k, ?_⟩
      have hcast : length = (length.toNat : Int) := by omega
      rw [hcast, hk]
      push_cast
      rfl
    simp [hpos, hland]

/-- For `FFT_RADIX_4`, a length that is not a positive multiple of 4 is
rejected. -/
theorem fft_init_radix4_rejects (alloc_ok : Bool) (cfg : fft_config_t) (length : Int)
    (h : ¬ (0 < length ∧ length % 4 = 0)) :
    (fft_init alloc_ok cfg fft_type_t.FFT_RADIX_4 length).1 = esp_err_t.ESP_ERR_INVALID_ARG := by
  unfold fft_init
  by_cases hpos : length ≤ 0
  · simp [hpos]
  · have h4 : length % 4 ≠ 0 := fun h0 => h ⟨by omega, h0⟩
    simp [hpos, h4]

/-- For `FFT_REAL`, every positive length is accepted as far as the argument
check goes. -/
theorem fft_init_real_accepts (alloc_ok : Bool) (cfg : fft_config_t) (length : Int)
    (hpos : 0 < length) :
    (fft_init alloc_ok cfg fft_type_t.FFT_REAL length).1 ≠ esp_err_t.ESP_ERR_INVALID_ARG := by
  have h : ¬ length ≤ 0 := by omega
  cases alloc_ok <;> simp [fft_init, h]

theorem not_power_of_two_1000 : ¬ ∃ k : Nat, (1000 : Int) = 2 ^ k := by
  rintro ⟨k, hk⟩
  have hk10 : k < 10 := by
    by_contra hge
    have h1 : (2 : Int) ^ 10 ≤ 2 ^ k := pow_le_pow_right₀ (by norm_num) (by omega)
    rw [← hk] at h1
    norm_num at h1
  interval_cases k <;> norm_num at hk

/-- C17, the failing input: `fft_init(&cfg, FFT_REAL, 1000)` with memory
available. 1000 is not a power of two, and the call returns `ESP_OK` with the
length stored: the power-of-two check is made for `FFT_RADIX_2` only. -/
theorem fft_init_real_accepts_1000 :
    fft_init true AudioRhythmProcessor.init.fft_config_ fft_type_t.FFT_REAL 1000 =
        (esp_err_t.ESP_OK,
          { type := fft_type_t.FFT_REAL, length := 1000, work_buffer := true }) ∧
      ¬ ∃ k : Nat, (1000 : Int) = 2 ^ k := by
  refine ⟨?_, not_power_of_two_1000⟩
  simp [fft_init]

/-- C18, as stated, fails: when the allocation in `fft_init` fails during
`Start()` on a new detector, `fft_init` returns `ESP_ERR_NO_MEM`, and `Start`
ends with the detector marked running, in the state a successful `Start` leaves
except for the missing work buffer. -/
theorem Start_swallows_no_mem :
    (fft_init false AudioRhythmProcessor.init.fft_config_ fft_type_t.FFT_REAL 1024).1 =
        esp_err_t.ESP_ERR_NO_MEM ∧
      (Start false AudioRhythmProcessor.init).running_ = true ∧
      Start false AudioRhythmProcessor.init =
        { Start true AudioRhythmProcessor.init with
          fft_config_ :=
            { type := fft_type_t.FFT_REAL, length := 1024, work_buffer := false } } := by
  simp [Start, fft_init, AudioRhythmProcessor.init]

/-- C18, amended. `Start()` returns nothing and discards the result of
`fft_init`. On a detector that is not running, `fft_init` (real transform, 1024
points) never fails with invalid-argument; when it fails with out-of-memory,
`Start` still marks the detector running and sizes the history to 15 entries,
leaving the configuration without a work buffer: the state differs from the one
after a successful `Start` in the work buffer only. -/
theorem Start_discards_setup_error (st : AudioRhythmProcessor) (alloc_ok : Bool)
    (hstopped : st.running_ = false) :
    (fft_init alloc_ok st.fft_config_ fft_type_t.FFT_REAL 1024).1 ≠
        esp_err_t.ESP_ERR_INVALID_ARG ∧
      (fft_init false st.fft_config_ fft_type_t.FFT_REAL 1024).1 = esp_err_t.ESP_ERR_NO_MEM ∧
      (Start false st).running_ = true ∧
      (Start false st).energy_history_.length = 15 ∧
      (Start false st).fft_config_.work_buffer = false ∧
      Start false st =
        { Start true st with
          fft_config_ := { (Start true st).fft_config_ with work_buffer := false } } := by
  refine ⟨?_, ?_, ?_, ?_, ?_, ?_⟩
  · cases alloc_ok <;> simp [fft_init]
  · simp [fft_init]
  · simp [Start, hstopped]
  · simp only [Start, hstopped, Bool.not_false, if_true]
    exact vector_resize_length _ _ _
  · simp [Start, hstopped, fft_init]
  · simp [Start, hstopped, fft_init]

/-- Witness of C18 (amended): a newly constructed detector. -/
theorem Start_discards_setup_error_witness :
    (Start false AudioRhythmProcessor.init).running_ = true ∧
      (Start false AudioRhythmProcessor.init).fft_config_.work_buffer = false :=
  ⟨(Start_discards_setup_error AudioRhythmProcessor.init false rfl).2.2.1,
    (Start_discards_setup_error AudioRhythmProcessor.init false rfl).2.2.2.2.1⟩

/-! ## The state lock -/

/-- C19, the failing interleaving. The setters assign the state fields before
`RefreshEffect` takes `state_mutex_`, so their writes are made without the lock,
while `RefreshEffect` and `UpdateMusicEffect` access the state under it. With
thread 0 in `SetEffect(EFFECT_MUSIC, red_params)` and thread 1 in
`UpdateMusicEffect(200)`, the schedule that runs thread 1 between the two
assignments of thread 0 lets the beat render see effect type Music with the
old parameters. -/
theorem setter_writes_outside_lock :
    accesses_locked false (SetPower_steps true) = false ∧
      accesses_locked false (SetBrightness_steps 255 4) = false ∧
      accesses_locked false (SetEffect_steps EffectType.EFFECT_MUSIC) = false ∧
      accesses_locked false (SetEffectParams_steps EffectType.EFFECT_MUSIC red_params) = false ∧
      accesses_locked false RefreshEffect_steps = true ∧
      accesses_locked false (UpdateMusicEffect_steps 200) = true ∧
      (run_schedule race_start [0, 1, 1, 1, 0, 0, 0, 0]).map (fun m => m.observed) =
        some [(1, EffectType.EFFECT_MUSIC, white_params),
          (0, EffectType.EFFECT_MUSIC, red_params)] := by
  refine ⟨by decide, by decide, by decide, by decide, by decide, by decide, by decide⟩

/-! ## Alarm dates -/

/-- C20. `is_valid_date` returns true exactly when `1970 ≤ year ≤ 2100`,
`1 ≤ month ≤ 12` and `1 ≤ day ≤` the number of days of that month in that
Gregorian year. -/
theorem is_valid_date_iff (ev : alarm_event_t) :
    is_valid_date ev = true ↔
      (1970 ≤ ev.year ∧ ev.year ≤ 2100 ∧ 1 ≤ ev.month ∧ ev.month ≤ 12 ∧ 1 ≤ ev.day ∧
        ev.day ≤ gregorian_days_in_month ev.year ev.month) := by
  unfold is_valid_date gregorian_days_in_month
  split_ifs <;> simp <;> omega

/-! ## The alarm list -/

theorem find_alarm_none (id : Nat) (l : List alarm_event_t) :
    find_alarm id l = none ↔ ∀ a ∈ l, a.id ≠ id := by
  induction l with
  | nil => simp [find_alarm]
  | cons a rest ih =>
    by_cases h : a.id = id
    · simp [find_alarm, h]
    · simp [find_alarm, h, ih]

theorem find_alarm_some (id : Nat) (l : List alarm_event_t) (i : Nat)
    (h : find_alarm id l = some i) :
    i < l.length ∧ (∃ a, l[i]? = some a ∧ a.id = id) ∧
      ∀ j, j < i → ∀ a, l[j]? = some a → a.id ≠ id := by
  induction l generalizing i with
  | nil => simp [find_alarm] at h
  | cons a rest ih =>
    by_cases ha : a.id = id
    · simp only [find_alarm, ha, if_true, Option.some.injEq] at h
      subst h
      refine ⟨by simp, ⟨a, by simp, ha⟩, ?_⟩
      intro j hj
      omega
    · simp only [find_alarm, ha, if_false, Option.map_eq_some'] at h
      obtain ⟨i0, hi0, rfl⟩ := h
      obtain ⟨hlt, ⟨b, hb, hbid⟩, hbefore⟩ := ih i0 hi0
      refine ⟨by simp; omega, ⟨b, by simpa using hb, hbid⟩, ?_⟩
      intro j hj c hc
      cases j with
      | zero =>
        simp only [List.getElem?_cons_zero, Option.some.injEq] at hc
        rw [← hc]
        exact ha
      | succ j0 =>
        simp only [List.getElem?_cons_succ] at hc
        exact hbefore j0 (by omega) c hc

theorem memmove_down_length (alarms : List alarm_event_t) (i n : Nat)
    (h : i + 1 + n ≤ alarms.length) : (memmove_down alarms i n).length = alarms.length := by
  simp only [memmove_down, List.length_append, List.length_take, List.length_drop]
  omega

theorem memmove_down_stored (alarms : List alarm_event_t) (count i : Nat)
    (hcount : count ≤ alarms.length) (hi : i < count) :
    (memmove_down alarms i (count - i - 1)).take (count - 1) =
      (alarms.take count).eraseIdx i := by
  rw [List.eraseIdx_eq_take_drop_succ, List.take_take, List.drop_take, memmove_down]
  have hmin : min i count = i := by omega
  have hlen : (alarms.take i ++ (alarms.drop (i + 1)).take (count - i - 1)).length =
      count - 1 := by
    simp only [List.length_append, List.length_take, List.length_drop]
    omega
  rw [hmin, List.take_append_of_le_length (by omega), List.take_of_length_le (by omega)]
  congr 2

theorem stored_set_succ (alarms : List alarm_event_t) (count : Nat) (ev : alarm_event_t)
    (h : count < alarms.length) :
    (alarms.set count ev).take (count + 1) = alarms.take count ++ [ev] := by
  induction alarms generalizing count with
  | nil => simp at h
  | cons a rest ih =>
    cases count with
    | zero => simp
    | succ c =>
      simp only [List.length_cons, Nat.add_lt_add_iff_right] at h
      simp [ih c h]

/-- C22. For every alarm list (the first `alarm_count` entries of the array,
`alarm_count` within the array) and every id: when some stored alarm has the id,
`alarm_remove` returns `ESP_OK`, the stored list loses exactly the entry at the
first index `i` holding that id, the other alarms keep their values and order,
and the count drops by one; when no stored alarm has the id, it returns
`ESP_ERR_NOT_FOUND` and leaves the state as it was. -/
theorem alarm_remove_spec (st : AlarmState) (id : Nat)
    (hbound : st.alarm_count ≤ st.alarms.length) :
    ((∃ a ∈ stored st, a.id = id) →
        ∃ i, i < (stored st).length ∧ (∃ a, (stored st)[i]? = some a ∧ a.id = id) ∧
          (∀ j, j < i → ∀ a, (stored st)[j]? = some a → a.id ≠ id) ∧
          (alarm_remove st id).1 = esp_err_t.ESP_OK ∧
          stored (alarm_remove st id).2 = (stored st).eraseIdx i ∧
          (alarm_remove st id).2.alarm_count + 1 = st.alarm_count ∧
          (alarm_remove st id).2.alarms.length = st.alarms.length ∧
          (alarm_remove st id).2.next_id = st.next_id) ∧
      ((∀ a ∈ stored st, a.id ≠ id) →
        alarm_remove st id = (esp_err_t.ESP_ERR_NOT_FOUND, st)) := by
  have hlen : (stored st).length = st.alarm_count := by
    simp only [stored, List.length_take]
    omega
  constructor
  · rintro ⟨a, ha, haid⟩
    cases hfind : find_alarm id (stored st) with
    | none => exact absurd haid ((find_alarm_none id (stored st)).mp hfind a ha)
    | some i =>
      obtain ⟨hi, hat, hbefore⟩ := find_alarm_some id (stored st) i hfind
      rw [hlen] at hi
      have hrem : alarm_remove st id =
          (esp_err_t.ESP_OK,
            { st with
              alarms := memmove_down st.alarms i (st.alarm_count - i - 1)
              alarm_count := st.alarm_count - 1 }) := by
        simp only [alarm_remove, hfind]
      rw [hrem]
      refine ⟨i, by rw [hlen]; exact hi, hat, hbefore, rfl, ?_, ?_, ?_, rfl⟩
      · exact memmove_down_stored st.alarms st.alarm_count i hbound hi
      · show st.alarm_count - 1 + 1 = st.alarm_count
        omega
      · exact memmove_down_length _ _ _ (by omega)
  · intro hnone
    simp [alarm_remove, (find_alarm_none id (stored st)).mpr hnone]

/-- A successful `alarm_add` of a one-time alarm with a valid date: the alarm is
appended to the stored list with the current `next_id`, which is then
incremented and set back to 0 on reaching `UINT16_MAX`. -/
theorem alarm_add_once (env : LibcTime) (st : AlarmState) (ev : alarm_event_t)
    (hcount : st.alarm_count < MAX_ALARMS) (hlen : st.alarms.length = MAX_ALARMS)
    (hdate : is_valid_date ev = true) (honce : ev.repeat_type = RepeatType.REPEAT_ONCE) :
    ∃ stored_ev : alarm_event_t, stored_ev.id = st.next_id ∧
      (alarm_add env st ev).1 = esp_err_t.ESP_OK ∧
      stored (alarm_add env st ev).2 = stored st ++ [stored_ev] ∧
      (alarm_add env st ev).2.alarm_count = st.alarm_count + 1 ∧
      (alarm_add env st ev).2.alarms.length = MAX_ALARMS ∧
      (alarm_add env st ev).2.next_id =
        (if (st.next_id + 1) % 65536 = UINT16_MAX then 0 else (st.next_id + 1) % 65536) := by
  have hnot : ¬ st.alarm_count ≥ MAX_ALARMS := by omega
  have hmod : (st.alarm_count + 1) % 256 = st.alarm_count + 1 := by
    unfold MAX_ALARMS at hcount
    omega
  refine ⟨{ ev with
      id := st.next_id
      next_trigger := env.mktime
        { tm_sec := 0, tm_min := ev.minute, tm_hour := ev.hour, tm_mday := ev.day
          tm_mon := (ev.month : Int) - 1, tm_year := (ev.year : Int) - 1900
          tm_wday := 0, tm_yday := 0, tm_isdst := 0 } }, rfl, ?_⟩
  simp only [alarm_add, hnot, if_false, hdate, Bool.not_true, Bool.false_eq_true, honce, ne_eq,
    not_true_eq_false, and_false, hmod, stored, List.length_set, hlen, and_true, true_and]
  exact stored_set_succ _ _ _ (by omega)

theorem run_alarms_append (st : AlarmState) (ops1 ops2 : List AlarmOp) :
    run_alarms st (ops1 ++ ops2) = run_alarms (run_alarms st ops1) ops2 := by
  induction ops1 generalizing st with
  | nil => rfl
  | cons op rest ih =>
    show run_alarms (alarm_step st op) (rest ++ ops2) = _
    rw [ih]
    rfl

/-- One round `alarm_add(ev); alarm_remove(n)` on a list holding the single
alarm `first` (id 0), with `next_id = n`: the list is as before and `next_id`
has advanced. -/
theorem add_remove_round (env : LibcTime) (ev first : alarm_event_t) (st : AlarmState)
    (n : Nat) (hdate : is_valid_date ev = true)
    (honce : ev.repeat_type = RepeatType.REPEAT_ONCE)
    (hstored : stored st = [first]) (hcount : st.alarm_count = 1)
    (hlen : st.alarms.length = MAX_ALARMS) (hnext : st.next_id = n)
    (hfirst : first.id = 0) (h1 : 1 ≤ n) (h2 : n ≤ 65534) :
    stored (run_alarms st [AlarmOp.add env ev, AlarmOp.remove n]) = [first] ∧
      (run_alarms st [AlarmOp.add env ev, AlarmOp.remove n]).alarm_count = 1 ∧
      (run_alarms st [AlarmOp.add env ev, AlarmOp.remove n]).alarms.length = MAX_ALARMS ∧
      (run_alarms st [AlarmOp.add env ev, AlarmOp.remove n]).next_id =
        (if n + 1 = 65535 then 0 else n + 1) := by
  obtain ⟨e, heid, _, hst1, hc1, hl1, hn1⟩ :=
    alarm_add_once env st ev (by rw [hcount]; decide) hlen hdate honce
  rw [hstored] at hst1
  rw [hcount] at hc1
  rw [hnext] at heid hn1
  have hmod : (n + 1) % 65536 = n + 1 := by omega
  rw [hmod] at hn1
  have hbound : (alarm_add env st ev).2.alarm_count ≤ (alarm_add env st ev).2.alarms.length := by
    rw [hc1, hl1]
    decide
  obtain ⟨i, hi, ⟨a, hai, haid⟩, hbefore, _, hst2, hc2, hl2, hn2⟩ :=
    (alarm_remove_spec (alarm_add env st ev).2 n hbound).1
      ⟨e, by rw [hst1]; simp, heid⟩
  have hi1 : i = 1 := by
    rw [hst1] at hi hai hbefore
    simp only [List.cons_append, List.nil_append, List.length_cons, List.length_nil] at hi
    have hne0 : i ≠ 0 := by
      intro h0
      rw [h0] at hai
      have hfa : first = a := by simpa using hai
      rw [← hfa, hfirst] at haid
      omega
    omega
  rw [hi1, hst1] at hst2
  simp only [run_alarms, alarm_step]
  refine ⟨by simpa using hst2, by omega, by rw [hl2, hl1], ?_⟩
  rw [hn2, hn1]
  rfl

theorem add_remove_rounds (env : LibcTime) (ev first : alarm_event_t)
    (hdate : is_valid_date ev = true) (honce : ev.repeat_type = RepeatType.REPEAT_ONCE)
    (hfirst : first.id = 0) (count : Nat) :
    ∀ (st : AlarmState) (start : Nat), stored st = [first] → st.alarm_count = 1 →
      st.alarms.length = MAX_ALARMS → st.next_id = start → 1 ≤ start → start ≤ 65534 →
      start + count ≤ 65535 →
      stored (run_alarms st (add_remove_cycles env ev start count)) = [first] ∧
        (run_alarms st (add_remove_cycles env ev start count)).alarm_count = 1 ∧
        (run_alarms st (add_remove_cycles env ev start count)).alarms.length = MAX_ALARMS ∧
        (run_alarms st (add_remove_cycles env ev start count)).next_id =
          (if start + count = 65535 then 0 else start + count) := by
  induction count with
  | zero =>
    intro st start hs hc hl hn _ h2 _
    have hne : ¬ start + 0 = 65535 := by omega
    simp only [add_remove_cycles, run_alarms, hne, if_false]
    exact ⟨hs, hc, hl, hn⟩
  | succ c ih =>
    intro st start hs hc hl hn h1 h2 h3
    obtain ⟨rs, rc, rl, rn⟩ :=
      add_remove_round env ev first st start hdate honce hs hc hl hn hfirst h1 h2
    have hsplit : add_remove_cycles env ev start (c + 1) =
        [AlarmOp.add env ev, AlarmOp.remove start] ++ add_remove_cycles env ev (start + 1) c :=
      rfl
    rw [hsplit, run_alarms_append]
    cases c with
    | zero =>
      simp only [add_remove_cycles, run_alarms]
      exact ⟨rs, rc, rl, rn⟩
    | succ c0 =>
      have hne : ¬ start + 1 = 65535 := by omega
      rw [if_neg hne] at rn
      have hfin := ih _ (start + 1) rs rc rl rn (by omega) (by omega) (by omega)
      have hsum : start + 1 + (c0 + 1) = start + (c0 + 1 + 1) := by omega
      rw [hsum] at hfin
      exact hfin

theorem run_alarms_nil (st : AlarmState) : run_alarms st [] = st := rfl

theorem run_alarms_cons (st : AlarmState) (op : AlarmOp) (ops : List AlarmOp) :
    run_alarms st (op :: ops) = run_alarms (alarm_step st op) ops := rfl

theorem alarm_step_add (st : AlarmState) (env : LibcTime) (ev : alarm_event_t) :
    alarm_step st (AlarmOp.add env ev) = (alarm_add env st ev).2 := rfl

/-- C21, the failing input: `alarm_add` of an alarm that stays stored (id 0),
then 65534 rounds of `alarm_add` and `alarm_remove` of the alarm just added
(ids 1 to 65534, after which `next_id` is set back to 0), then one more
`alarm_add`. Two alarms are stored and both have id 0. -/
theorem alarm_ids_repeat_after_wrap :
    (stored (run_alarms AlarmState.init id_wrap_calls)).map (fun a => a.id) = [0, 0] ∧
      (run_alarms AlarmState.init id_wrap_calls).alarm_count = 2 := by
  have hdate : is_valid_date new_year_alarm = true := by decide
  have honce : new_year_alarm.repeat_type = RepeatType.REPEAT_ONCE := rfl
  obtain ⟨e0, he0, _, hs1, hc1, hl1, hn1⟩ :=
    alarm_add_once frozen_clock AlarmState.init new_year_alarm (by decide) (by decide) hdate honce
  have hs1a : stored (alarm_add frozen_clock AlarmState.init new_year_alarm).2 = [e0] := by
    rw [hs1]
    rfl
  have he0id : e0.id = 0 := he0
  have hn1a : (alarm_add frozen_clock AlarmState.init new_year_alarm).2.next_id = 1 := by
    rw [hn1]
    decide
  obtain ⟨hs2, hc2, hl2, hn2⟩ :=
    add_remove_rounds frozen_clock new_year_alarm e0 hdate honce he0id 65534
      (alarm_add frozen_clock AlarmState.init new_year_alarm).2 1 hs1a hc1 hl1 hn1a
      (by decide) (by decide) (by decide)
  obtain ⟨e1, he1, _, hs3, hc3, _, _⟩ :=
    alarm_add_once frozen_clock
      (run_alarms (alarm_add frozen_clock AlarmState.init new_year_alarm).2
        (add_remove_cycles frozen_clock new_year_alarm 1 65534))
      new_year_alarm (by rw [hc2]; decide) hl2 hdate honce
  have hrun : run_alarms AlarmState.init id_wrap_calls =
      (alarm_add frozen_clock
        (run_alarms (alarm_add frozen_clock AlarmState.init new_year_alarm).2
          (add_remove_cycles frozen_clock new_year_alarm 1 65534))
        new_year_alarm).2 := by
    rw [id_wrap_calls, run_alarms_cons, run_alarms_append, run_alarms_cons, run_alarms_nil,
      alarm_step_add, alarm_step_add]
  rw [hrun, hs3, hs2, hc3, hc2]
  rw [hn2] at he1
  simp [he0id, he1]

/-- The three outcomes of `alarm_add`: the state is untouched (list full or date
invalid), or only `next_id` advances (no future trigger time), or the alarm is
appended with the current `next_id`. -/
theorem alarm_add_outcome (env : LibcTime) (st : AlarmState) (ev : alarm_event_t)
    (hlen : st.alarms.length = MAX_ALARMS) :
    (alarm_add env st ev).2 = st ∨
      (alarm_add env st ev).2 =
        { st with
          next_id :=
            if (st.next_id + 1) % 65536 = UINT16_MAX then 0 else (st.next_id + 1) % 65536 } ∨
      (st.alarm_count < MAX_ALARMS ∧ ∃ e : alarm_event_t, e.id = st.next_id ∧
        stored (alarm_add env st ev).2 = stored st ++ [e] ∧
        (alarm_add env st ev).2.alarm_count = st.alarm_count + 1 ∧
        (alarm_add env st ev).2.alarms.length = MAX_ALARMS ∧
        (alarm_add env st ev).2.next_id =
          (if (st.next_id + 1) % 65536 = UINT16_MAX then 0 else (st.next_id + 1) % 65536)) := by
  unfold alarm_add
  split
  · exact Or.inl rfl
  · rename_i hfull
    have hcount : st.alarm_count < MAX_ALARMS := by omega
    have hmod : (st.alarm_count + 1) % 256 = st.alarm_count + 1 := by
      unfold MAX_ALARMS at hcount
      omega
    split
    · exact Or.inl rfl
    · dsimp only
      split
      · split
        · exact Or.inr (Or.inl rfl)
        · refine Or.inr (Or.inr ⟨hcount, ?e, ?hid, ?hst, hmod, ?hl, rfl⟩)
          case hst =>
            simp only [stored, hmod]
            refine stored_set_succ _ _ _ ?_
            rw [hlen]
            exact hcount
          case hid => rfl
          case hl => simp only [List.length_set, hlen]
      · refine Or.inr (Or.inr ⟨hcount, ?e2, ?hid2, ?hst2, hmod, ?hl2, rfl⟩)
        case hst2 =>
          simp only [stored, hmod]
          refine stored_set_succ _ _ _ ?_
          rw [hlen]
          exact hcount
        case hid2 => rfl
        case hl2 => simp only [List.length_set, hlen]

theorem alarms_ok_add (env : LibcTime) (st : AlarmState) (ev : alarm_event_t) (k : Nat)
    (hok : alarms_ok st k) (hk : k + 1 ≤ 65534) :
    alarms_ok (alarm_add env st ev).2 (k + 1) := by
  obtain ⟨hc, hl, hn, hlt, hpw⟩ := hok
  have hbump : (if (st.next_id + 1) % 65536 = UINT16_MAX then 0 else (st.next_id + 1) % 65536) =
      st.next_id + 1 := by
    have h1 : (st.next_id + 1) % 65536 = st.next_id + 1 := by omega
    rw [h1, if_neg]
    unfold UINT16_MAX
    omega
  rcases alarm_add_outcome env st ev hl with h | h | ⟨hcount, e, he, hs, hc1, hl1, hn1⟩
  · rw [h]
    exact ⟨hc, hl, by omega, hlt, hpw⟩
  · rw [h, hbump]
    exact ⟨hc, hl, by show st.next_id + 1 ≤ k + 1; omega,
      fun a ha => Nat.lt_succ_of_lt (hlt a ha), hpw⟩
  · rw [hbump] at hn1
    refine ⟨by rw [hc1]; omega, hl1, by rw [hn1]; omega, ?_, ?_⟩
    · intro a ha
      rw [hs] at ha
      rw [hn1]
      rcases List.mem_append.mp ha with h | h
      · exact Nat.lt_succ_of_lt (hlt a h)
      · rw [List.mem_singleton.mp h, he]
        exact Nat.lt_succ_self _
    · rw [hs, List.map_append, List.pairwise_append]
      refine ⟨hpw, by simp, ?_⟩
      intro x hx y hy
      obtain ⟨a, ha, rfl⟩ := List.mem_map.mp hx
      simp only [List.map_cons, List.map_nil, List.mem_singleton] at hy
      rw [hy, he]
      exact hlt a ha

theorem alarms_ok_remove (st : AlarmState) (id k : Nat) (hok : alarms_ok st k) :
    alarms_ok (alarm_remove st id).2 k := by
  obtain ⟨hc, hl, hn, hlt, hpw⟩ := hok
  have hbound : st.alarm_count ≤ st.alarms.length := by rw [hl]; exact hc
  by_cases hex : ∃ a ∈ stored st, a.id = id
  · obtain ⟨i, _, _, _, _, hs, hc1, hl1, hn1⟩ := (alarm_remove_spec st id hbound).1 hex
    refine ⟨by omega, by rw [hl1, hl], by rw [hn1]; exact hn, ?_, ?_⟩
    · intro a ha
      rw [hs] at ha
      rw [hn1]
      exact hlt a ((List.eraseIdx_sublist _ _).subset ha)
    · rw [hs]
      exact hpw.sublist ((List.eraseIdx_sublist _ _).map _)
  · have hnone : ∀ a ∈ stored st, a.id ≠ id := fun a ha h => hex ⟨a, ha, h⟩
    rw [(alarm_remove_spec st id hbound).2 hnone]
    exact ⟨hc, hl, hn, hlt, hpw⟩

theorem alarms_ok_clear_all (st : AlarmState) (k : Nat) (hok : alarms_ok st k) :
    alarms_ok (alarm_clear_all st) k := by
  obtain ⟨_, _, hn, _, _⟩ := hok
  refine ⟨Nat.zero_le _, by simp [alarm_clear_all], hn, ?_, ?_⟩
  · intro a ha
    simp [stored, alarm_clear_all] at ha
  · simp [stored, alarm_clear_all]

/-- While at most 65534 `alarm_add` calls have been made, the stored count is at
most `MAX_ALARMS` and the stored ids are pairwise distinct (they increase along
the list). -/
theorem alarms_ok_run (ops : List AlarmOp) :
    ∀ (st : AlarmState) (k : Nat), alarms_ok st k → k + adds_in ops ≤ 65534 →
      alarms_ok (run_alarms st ops) (k + adds_in ops) := by
  induction ops with
  | nil =>
    intro st k hok _
    exact hok
  | cons op rest ih =>
    intro st k hok hk
    cases op with
    | add env ev =>
      simp only [adds_in] at hk ⊢
      have h1 := alarms_ok_add env st ev k hok (by omega)
      have h2 := ih _ (k + 1) h1 (by omega)
      rw [run_alarms_cons, alarm_step_add]
      have hsum : k + 1 + adds_in rest = k + (adds_in rest + 1) := by omega
      rw [← hsum]
      exact h2
    | remove id =>
      simp only [adds_in] at hk ⊢
      exact ih _ k (alarms_ok_remove st id k hok) hk
    | clear_all =>
      simp only [adds_in] at hk ⊢
      exact ih _ k (alarms_ok_clear_all st k hok) hk

theorem alarms_distinct_before_wrap (ops : List AlarmOp) (h : adds_in ops ≤ 65534) :
    (run_alarms AlarmState.init ops).alarm_count ≤ MAX_ALARMS ∧
      ((stored (run_alarms AlarmState.init ops)).map (fun a => a.id)).Nodup := by
  have hinit : alarms_ok AlarmState.init 0 := by
    refine ⟨by decide, by decide, Nat.le_refl _, ?_, ?_⟩
    · intro a ha
      simp [stored, AlarmState.init] at ha
    · simp [stored, AlarmState.init]
  have hrun := alarms_ok_run ops AlarmState.init 0 hinit (by omega)
  exact ⟨hrun.1, hrun.2.2.2.2.imp (fun hxy => Nat.ne_of_lt hxy)⟩

theorem two_alarms_reachable :
    run_alarms AlarmState.init
        [AlarmOp.add frozen_clock new_year_alarm, AlarmOp.add frozen_clock new_year_alarm] =
      two_alarms := by
  decide

/-- Witness of C22: on the list with ids 0 and 1, removing id 1 succeeds and
leaves the alarm with id 0; removing id 7 reports not found. -/
theorem alarm_remove_spec_witness :
    two_alarms.alarm_count ≤ two_alarms.alarms.length ∧
      (∃ i, (alarm_remove two_alarms 1).1 = esp_err_t.ESP_OK ∧
        stored (alarm_remove two_alarms 1).2 = (stored two_alarms).eraseIdx i) ∧
      alarm_remove two_alarms 7 = (esp_err_t.ESP_ERR_NOT_FOUND, two_alarms) :=
  ⟨by decide,
    ((alarm_remove_spec two_alarms 1 (by decide)).1 (by decide)).elim
      (fun i h => ⟨i, h.2.2.2.1, h.2.2.2.2.1⟩),
    (alarm_remove_spec two_alarms 7 (by decide)).2 (by decide)⟩

end Xiaozhi
